import Mathlib

/-!
Verification development for the wp-main automation scripts
(`src/automation/cybersecurity_autopost.py` and `src/automation/gemini_autopost.py`).

The Python code is shallowly embedded: strings are Lean `String`s (operations are
implemented on the underlying `List Char`, restricted to the ASCII behaviour of the
Python string methods actually exercised), JSON dictionaries become typed structures
with `Option` marking the "wrong shape" branches the code tests with `isinstance`,
and the one loop whose termination is in question (`expand_to_min_chars`) takes an
explicit fuel argument and returns `none` when the fuel is exhausted.
-/

/-! ### Python string primitives -/

/-- ASCII whitespace as matched by Python's regex class and by `str.strip`. -/
def isPySpace (c : Char) : Bool :=
  c == ' ' || c == '\t' || c == '\n' || c == '\r' || c == '\x0b' || c == '\x0c'

/-- Replace every maximal run of whitespace characters by a single space
(the substitution part of `re.sub(r"\s+", " ", text)`). -/
def collapseWsL : List Char → List Char
  | [] => []
  | [c] => [if isPySpace c then ' ' else c]
  | a :: b :: rest =>
    if isPySpace a && isPySpace b then collapseWsL (b :: rest)
    else (if isPySpace a then ' ' else a) :: collapseWsL (b :: rest)

/-- Drop characters satisfying `p` from the end of a list. -/
def rdropWhileL (p : Char → Bool) (cs : List Char) : List Char :=
  (cs.reverse.dropWhile p).reverse

/-- Python `str.strip()` on a character list. -/
def pyStripL (cs : List Char) : List Char :=
  rdropWhileL isPySpace (cs.dropWhile isPySpace)

/-- Python `str.strip()`. -/
def pyStrip (s : String) : String := ⟨pyStripL s.data⟩

/-- Tail-recursive list length (so that closed instances evaluate in constant
stack space); `lenAux acc cs = acc + cs.length`. -/
def lenAux : Nat → List Char → Nat
  | acc, [] => acc
  | acc, _ :: cs => lenAux (acc + 1) cs

/-- Python `len` on a string (the number of characters). -/
def pyLen (s : String) : Nat := lenAux 0 s.data

theorem lenAux_eq : ∀ (acc : Nat) (cs : List Char), lenAux acc cs = acc + cs.length := by
  intro acc cs
  induction cs generalizing acc with
  | nil => simp [lenAux]
  | cons c cs ih => simp [lenAux, ih]; omega

theorem pyLen_eq (s : String) : pyLen s = s.length := by
  rw [pyLen, lenAux_eq, Nat.zero_add]
  rfl

/-- Models `normalize_ws` (both scripts): `re.sub(r"\s+", " ", text).strip()`. -/
def normalizeWs (s : String) : String := ⟨pyStripL (collapseWsL s.data)⟩

/-- Python `str.lower()` restricted to ASCII letters. -/
def pyLower (s : String) : String := ⟨s.data.map Char.toLower⟩

/-- Python slicing `s[:n]` for a non-negative bound. -/
def pyTake (s : String) (n : Nat) : String := ⟨s.data.take n⟩

/-- Python slicing `s[n:]` for a non-negative bound. -/
def pyDrop (s : String) (n : Nat) : String := ⟨s.data.drop n⟩

/-- Python `str.strip(chars)`: drop characters of `set` from both ends. -/
def pyStripChars (set : List Char) (s : String) : String :=
  ⟨rdropWhileL set.contains (s.data.dropWhile set.contains)⟩

/-- Python `str.rstrip(chars)`: drop characters of `set` from the end. -/
def pyRstripChars (set : List Char) (s : String) : String :=
  ⟨rdropWhileL set.contains s.data⟩

/-- Boolean check that `pat` is an initial segment of `cs`. -/
def startsL : List Char → List Char → Bool
  | [], _ => true
  | _ :: _, [] => false
  | p :: ps, c :: cs => p == c && startsL ps cs

/-- Python `str.startswith`. -/
def pyStartsWith (s pat : String) : Bool := startsL pat.data s.data

/-- Substring test on character lists (Python's `needle in haystack`). -/
def containsSubL (needle : List Char) : List Char → Bool
  | [] => startsL needle []
  | c :: cs => startsL needle (c :: cs) || containsSubL needle cs

/-- Python substring containment `needle in hay`. -/
def containsSubstr (hay needle : String) : Bool :=
  containsSubL needle.data hay.data

/-- Python `str.title()` restricted to ASCII: the first letter of each maximal
letter-run is uppercased, the remaining letters are lowercased. -/
def pyTitleCaseL : Bool → List Char → List Char
  | _, [] => []
  | prevAlpha, c :: cs =>
    if c.isAlpha then
      (if prevAlpha then c.toLower else c.toUpper) :: pyTitleCaseL true cs
    else
      c :: pyTitleCaseL false cs

/-- Python `str.title()`. -/
def pyTitleCase (s : String) : String := ⟨pyTitleCaseL false s.data⟩

/-! ### Alphanumeric runs, slugs, tokens -/

/-- A character matched by the regex class `[a-z0-9]`. -/
def isSlugChar (c : Char) : Bool :=
  ('a' ≤ c && c ≤ 'z') || ('0' ≤ c && c ≤ '9')

/-- Accumulator pass for `alnumRunsL`: `cur` holds the reversed characters of
the current (possibly empty) run of `[a-z0-9]` characters. -/
def alnumRunsAux : List Char → List Char → List (List Char)
  | cur, [] => if cur = [] then [] else [cur.reverse]
  | cur, c :: rest =>
    if isSlugChar c then alnumRunsAux (c :: cur) rest
    else if cur = [] then alnumRunsAux [] rest
    else cur.reverse :: alnumRunsAux [] rest

/-- Maximal runs of `[a-z0-9]` characters: `re.findall(r"[a-z0-9]+", ·)`. -/
def alnumRunsL (cs : List Char) : List (List Char) :=
  alnumRunsAux [] cs

/-- `re.findall(r"[a-z0-9]+", s)` as strings. -/
def alnumRuns (s : String) : List String := (alnumRunsL s.data).map String.mk

/-- Python `"-".join(runs)`: the runs separated by single hyphens. -/
def joinHyphen : List String → String
  | [] => ""
  | [r] => r
  | r :: rs => r ++ "-" ++ joinHyphen rs

/-! ### Duplicate detector (cybersecurity_autopost.py lines 143-158, 382-391) -/

/-- The module-level STOPWORDS set (cybersecurity_autopost.py lines 30-67). -/
def STOPWORDS : List String :=
  ["about", "after", "again", "against", "also", "and", "are", "been",
   "before", "being", "between", "could", "during", "from", "have", "into",
   "more", "most", "over", "that", "their", "them", "then", "there", "these",
   "they", "this", "through", "under", "using", "what", "when", "where",
   "which", "with", "your"]

/-- Replace every maximal run of non-`[a-z0-9]` characters by a single space
(the substitution part of `re.sub(r"[^a-z0-9]+", " ", text)`). -/
def subNonAlnumL : List Char → List Char
  | [] => []
  | [c] => [if isSlugChar c then c else ' ']
  | a :: b :: rest =>
    if !isSlugChar a && !isSlugChar b then subNonAlnumL (b :: rest)
    else (if isSlugChar a then a else ' ') :: subNonAlnumL (b :: rest)

/-- `normalize_title` (line 143): lower-case, non-alphanumeric runs to spaces,
whitespace collapsed and stripped. -/
def normalize_title (text : String) : String :=
  normalizeWs ⟨subNonAlnumL (pyLower text).data⟩

/-- `title_tokens` (lines 147-149): alphanumeric runs of the lowered text, of
length > 2 and not stopwords, as a set (modelled as a duplicate-free list). -/
def title_tokens (text : String) : List String :=
  ((alnumRuns (pyLower text)).filter
    (fun t => pyLen t > 2 && !STOPWORDS.contains t)).dedup

/-- `jaccard_similarity` (lines 152-158), with exact rationals in place of
Python floats.  Inputs are duplicate-free lists standing for sets. -/
def jaccard_similarity (left right : List String) : ℚ :=
  if left = [] ∨ right = [] then 0
  else
    let union := (left ++ right).dedup
    if union = [] then 0
    else ((left.filter right.contains).dedup.length : ℚ) / (union.length : ℚ)

/-- `near_duplicate_title` (lines 382-391): exact normalized-title match, or a
token Jaccard score of at least 0.72, against any existing title. -/
def near_duplicate_title (new_title : String) (existing_titles : List String) : Bool :=
  let normalized_new := normalize_title new_title
  let new_tokens := title_tokens new_title
  existing_titles.any fun existing =>
    normalized_new == normalize_title existing
    || decide ((72 : ℚ) / 100 ≤ jaccard_similarity new_tokens (title_tokens existing))

/-! ### Text shaping (cybersecurity_autopost.py lines 296-330) -/

/-- `clipped.rsplit(" ", 1)[0]`: everything before the last space, or the whole
list when there is no space. -/
def rsplitLastSpaceL (cs : List Char) : List Char :=
  match cs.reverse.dropWhile (· ≠ ' ') with
  | ' ' :: rest => rest.reverse
  | _ => cs

/-- `trim_to_max_chars` (lines 296-303): normalize whitespace; if over `max_chars`,
clip, back up to the last word boundary, and strip trailing punctuation. -/
def trim_to_max_chars (text : String) (max_chars : Nat) : String :=
  let text := normalizeWs text
  if pyLen text ≤ max_chars then text
  else
    let clipped : String := ⟨rdropWhileL isPySpace (text.data.take max_chars)⟩
    let clipped : String := if clipped.data.contains ' ' then ⟨rsplitLastSpaceL clipped.data⟩ else clipped
    pyRstripChars [' ', ',', ';', ':', '-'] clipped

/-- `trim_slug` (lines 306-311): join the alphanumeric runs of the lowered,
whitespace-normalized input with hyphens, trim, strip hyphens, and fall back to
the fixed default slug when the result is empty. -/
def trim_slug (slug : String) (max_chars : Nat := 120) : String :=
  let normalized := joinHyphen (alnumRuns (pyLower (normalizeWs slug)))
  let trimmed := pyStripChars ['-'] (trim_to_max_chars normalized max_chars)
  if trimmed ≠ "" then trimmed else "nepal-election-candidate-profile"

/-- The fixed filler phrase appended by `expand_to_min_chars` (line 324). -/
def padPhrase : String :=
  " Stay updated with key risks, practical defenses, and actionable mitigation guidance."

/-- The `while len(text) < min_chars` padding loop of `expand_to_min_chars`
(lines 325-328), with explicit fuel; `none` means the fuel ran out with the
target length still unreached. -/
def expandLoop : Nat → String → Nat → Option String
  | 0, text, min_chars => if min_chars ≤ pyLen text then some text else none
  | fuel + 1, text, min_chars =>
    if pyLen text < min_chars then
      expandLoop fuel (pyStrip (text ++ pyTake padPhrase (min_chars - pyLen text))) min_chars
    else some text

/-- `expand_to_min_chars` (lines 314-330).  Fuel bounds the padding loop; every
terminating run of the Python function is `some` for large enough fuel. -/
def expand_to_min_chars (fuel : Nat) (text : String) (min_chars max_chars : Nat)
    (fallback : String) : Option String :=
  let text := normalizeWs text
  let fallback := normalizeWs fallback
  if min_chars ≤ pyLen text then some (trim_to_max_chars text max_chars)
  else
    let text :=
      if fallback ≠ "" && !containsSubstr (pyLower text) (pyLower fallback) then
        pyStrip (text ++ (if text = "" then "" else " ") ++ fallback)
      else text
    match expandLoop fuel text min_chars with
    | some t => some (trim_to_max_chars t max_chars)
    | none => none

/-! ### URL host extraction (lines 284-289; stdlib `urlparse` netloc modelled
for the absolute-URL shapes the scripts handle) -/

/-- A character allowed in a URL scheme after the leading letter. -/
def isSchemeChar (c : Char) : Bool :=
  c.isAlphanum || c == '+' || c == '-' || c == '.'

/-- Drop a leading `scheme:` when present (part of `urlparse`). -/
def dropScheme (cs : List Char) : List Char :=
  match cs with
  | [] => []
  | c :: rest =>
    if c.isAlpha then
      match rest.dropWhile isSchemeChar with
      | ':' :: r => r
      | _ => c :: rest
    else c :: rest

/-- `urlparse(url).netloc`: after a `//`, the characters up to `/`, `?` or `#`. -/
def netlocL (cs : List Char) : List Char :=
  match dropScheme cs with
  | '/' :: '/' :: rest => rest.takeWhile (fun c => c ≠ '/' && c ≠ '?' && c ≠ '#')
  | _ => []

/-- `domain_from_url` (lines 284-289): lower-cased, stripped netloc with a
leading `www.` removed. -/
def domain_from_url (url : String) : String :=
  let host : String := ⟨pyStripL ((netlocL (pyStripL url.data)).map Char.toLower)⟩
  if pyStartsWith host "www." then pyDrop host 4 else host

/-! ### Kebab-case slug matcher: `re.fullmatch(r"[a-z0-9]+(?:-[a-z0-9]+)*", slug)`
(line 423) -/

/-- Matcher for `[a-z0-9]+(-[a-z0-9]+)*`.  The flag records whether at least
one `[a-z0-9]` character of the current run has been consumed (so the input
may end, continue the run, or start a new run after a hyphen). -/
def kebabAux : Bool → List Char → Bool
  | inRun, [] => inRun
  | false, c :: rest => isSlugChar c && kebabAux true rest
  | true, c :: rest =>
    if isSlugChar c then kebabAux true rest
    else c = '-' && kebabAux false rest

/-- Whole-string kebab-case test. -/
def isKebab (s : String) : Bool := kebabAux false s.data

/-! ### FAQ question counter: `re.findall(r"<h3[^>]*>.*?\?</h3>", content_html,
flags=IGNORECASE | DOTALL)` (line 440) -/

/-- Case-insensitive literal match; returns the rest of the input on success. -/
def matchCI : List Char → List Char → Option (List Char)
  | [], cs => some cs
  | _ :: _, [] => none
  | p :: ps, c :: cs => if p.toLower == c.toLower then matchCI ps cs else none

/-- Scan for the earliest case-insensitive occurrence of `?</h3>` (the lazy
`.*?\?</h3>` part); returns the rest of the input after it. -/
def findCloseQ : List Char → Option (List Char)
  | [] => none
  | c :: cs =>
    match matchCI "?</h3>".data (c :: cs) with
    | some rest => some rest
    | none => findCloseQ cs

/-- Try to match `<h3[^>]*>.*?\?</h3>` at the head of the input. -/
def matchH3At (cs : List Char) : Option (List Char) :=
  match matchCI "<h3".data cs with
  | none => none
  | some rest =>
    match rest.dropWhile (· ≠ '>') with
    | '>' :: rest2 => findCloseQ rest2
    | _ => none

/-- Count non-overlapping matches, scanning left to right like `re.findall`;
the fuel is the input length, which bounds the number of scan steps. -/
def countFaqAux : Nat → List Char → Nat
  | 0, _ => 0
  | _, [] => 0
  | fuel + 1, c :: t =>
    match matchH3At (c :: t) with
    | some rest => 1 + countFaqAux fuel rest
    | none => countFaqAux fuel t

/-- `faq_question_count` as computed on line 440. -/
def faq_question_count (s : String) : Nat := countFaqAux (lenAux 0 s.data) s.data

/-! ### Data model

JSON dictionaries become typed structures.  `Option` encodes the `isinstance`
checks the validator performs: `none` is the "not a list" / "not an object"
shape.  Missing string keys are the empty string, matching the `get(..., "")`
defaults in the code. -/

/-- One entry of the `sources` array. -/
structure Source where
  url : String
  domain : String
  publisher : String
deriving DecidableEq, Repr

/-- The `candidate_profile` object. -/
structure CandidateProfile where
  candidate_name : String
  election_name : String
  election_date : String
  party : String
  constituency : String
  current_position : String
  short_bio : String
  profile_source_url : String
  profile_image_url : String
  profile_image_source_url : String
deriving DecidableEq, Repr

/-- The profile used when `candidate_profile` is not an object (line 471). -/
def emptyProfile : CandidateProfile :=
  ⟨"", "", "", "", "", "", "", "", "", ""⟩

/-- The `seo` object. -/
structure Seo where
  focus_keyphrase : String
  meta_title : String
  meta_description : String
  seo_slug_hint : String
deriving DecidableEq, Repr

/-- The seo object used when `seo` is not an object (lines 339, 529). -/
def emptySeo : Seo := ⟨"", "", "", ""⟩

/-- The value found under a key_facts entry's `confidence` key, after
`int(...)`: either an integer or a non-numeric value (line 571). -/
inductive ConfidenceVal
  | num (n : Int)
  | nonNumeric
deriving DecidableEq, Repr

/-- One entry of `key_facts`: either not a dict, or a dict carrying a
confidence and (when the key holds a list) supporting source URLs. -/
inductive FactItem
  | notObject
  | fact (confidence : ConfidenceVal) (supporting_source_urls : Option (List String))
deriving DecidableEq, Repr

/-- The generated draft payload, with exactly the keys `validate_payload` and
`normalize_seo_fields` read. -/
structure Payload where
  status : String
  reason : String
  title : String
  slug : String
  excerpt : String
  topic_keywords : Option (List String)
  content_html : String
  sources : Option (List Source)
  candidate_profile : Option CandidateProfile
  seo : Option Seo
  key_facts : Option (List FactItem)
deriving DecidableEq, Repr

/-! ### Validation engine (`validate_payload`, lines 394-581), split into the
rule blocks appended to `errors` in source order. -/

/-- An ASCII apostrophe, kept out of string literals. -/
def squote : String := String.singleton (Char.ofNat 39)

/-- The invalid-status message (line 405). -/
def statusMsg : String :=
  "status must be " ++ squote ++ "publish" ++ squote ++ " or " ++ squote ++ "skip" ++ squote ++ "."

/-- The skip-status gate (lines 408-412). -/
def skipErrs (reason : String) : List String :=
  if pyStrip reason = "" then ["skip payload must include a reason."] else []

/-- Title checks (lines 414-420): an `if/elif/elif` chain, so at most one of
the three title violations is ever produced. -/
def titleErrs (title : String) (existing_titles : List String) : List String :=
  if title = "" then ["Missing title."]
  else if pyLen title < 24 then ["Title is too short."]
  else if near_duplicate_title title existing_titles then
    ["Generated title appears to duplicate an existing topic."]
  else []

/-- Slug check (lines 422-424). -/
def slugErrs (slug : String) : List String :=
  if !isKebab slug then ["Slug must be kebab-case."] else []

/-- Excerpt floor (lines 426-428). -/
def excerptErrs (excerpt : String) : List String :=
  if pyLen excerpt < 110 then ["Excerpt is too short."] else []

/-- Topic keyword check (lines 430-432). -/
def topicKeywordErrs : Option (List String) → List String
  | none => ["Need at least 3 topic_keywords."]
  | some tk => if tk.length < 3 then ["Need at least 3 topic_keywords."] else []

/-- Content body checks (lines 434-442). -/
def contentErrs (content_html : String) : List String :=
  (if pyLen content_html < 1800 then
    ["content_html is too short for the required depth."] else [])
  ++ (if !containsSubstr (pyLower content_html) "faq" then
    ["content_html must include an FAQ section for SEO."] else [])
  ++ (if faq_question_count content_html < 3 then
    ["FAQ section should include at least 3 questions in H3 tags."] else [])

/-- The set of stripped http source URLs (lines 451-455). -/
def sourceUrlSet (sources : List Source) : List String :=
  ((sources.map (fun s => pyStrip s.url)).filter (fun u => pyStartsWith u "http")).dedup

/-- The set of non-empty source domains, explicit or derived (lines 457-462). -/
def uniqueDomains (sources : List Source) : List String :=
  ((sources.map (fun s =>
    let d := pyLower (pyStrip s.domain)
    if d = "" then domain_from_url s.url else d)).dedup).filter (fun d => d ≠ "")

/-- Source count floor (lines 448-449). -/
def sourceCountErrs (min_sources : Nat) (sources : List Source) : List String :=
  if sources.length < min_sources then
    ["Need at least " ++ toString min_sources ++ " sources; found "
      ++ toString sources.length ++ "."]
  else []

/-- Distinct domain floor (lines 463-466). -/
def domainCountErrs (min_sources : Nat) (sources : List Source) : List String :=
  if (uniqueDomains sources).length < min_sources then
    ["Need at least " ++ toString min_sources ++ " unique source domains; found "
      ++ toString (uniqueDomains sources).length ++ "."]
  else []

/-- The profile-source-url-in-sources check (lines 503-506). -/
def profileLinkErrs (profile_source_url : String) (sources : List Source) : List String :=
  if profile_source_url ≠ "" then
    let normalized_source_urls := (sourceUrlSet sources).map (pyRstripChars ['/'])
    if !normalized_source_urls.contains (pyRstripChars ['/'] profile_source_url)
        && !(uniqueDomains sources).contains (domain_from_url profile_source_url) then
      ["candidate_profile.profile_source_url must be included in sources."]
    else []
  else []

/-- `normalize_candidate_name` (line 177). -/
def normalize_candidate_name (name : String) : String := normalize_title name

/-- Cross-field candidate-name token checks (lines 517-524). -/
def candTokenErrs (candidate_name title excerpt content_html_lower : String) : List String :=
  let candidate_tokens := (title_tokens candidate_name).filter (fun t => pyLen t ≥ 3)
  if candidate_tokens ≠ [] then
    (if (candidate_tokens.filter (fun t => containsSubstr (pyLower title) t)).length < 1 then
      ["Title should include candidate name."] else [])
    ++ (if (candidate_tokens.filter (fun t => containsSubstr (pyLower excerpt) t)).length < 1 then
      ["Excerpt should include candidate name."] else [])
    ++ (if (candidate_tokens.filter (fun t => containsSubstr content_html_lower t)).length < 2 then
      ["content_html should include candidate context clearly."] else [])
  else []

/-- Candidate-profile field checks (lines 473-515): the length floors, URL
checks and the already-profiled check — everything before the cross-field
token checks. -/
def profileFieldErrs (cp : CandidateProfile) (sources : List Source)
    (existing_candidates : List String) : List String :=
  let candidate_name := normalizeWs cp.candidate_name
  let election_name := normalizeWs cp.election_name
  let election_date := normalizeWs cp.election_date
  let party := normalizeWs cp.party
  let constituency := normalizeWs cp.constituency
  let current_position := normalizeWs cp.current_position
  let short_bio := normalizeWs cp.short_bio
  let profile_source_url := normalizeWs cp.profile_source_url
  let profile_image_url := normalizeWs cp.profile_image_url
  let profile_image_source_url := normalizeWs cp.profile_image_source_url
  (if pyLen candidate_name < 4 then
    ["candidate_profile.candidate_name is too short."] else [])
  ++ (if pyLen election_name < 8 then
    ["candidate_profile.election_name is too short."] else [])
  ++ (if !containsSubstr (pyLower election_name) "nepal" then
    ["candidate_profile.election_name should reference Nepal."] else [])
  ++ (if election_date ≠ "2026-03-05" then
    ["candidate_profile.election_date must be 2026-03-05."] else [])
  ++ (if pyLen party < 2 then
    ["candidate_profile.party is too short."] else [])
  ++ (if pyLen constituency < 2 then
    ["candidate_profile.constituency is too short."] else [])
  ++ (if pyLen current_position < 2 then
    ["candidate_profile.current_position is too short."] else [])
  ++ (if pyLen short_bio < 60 then
    ["candidate_profile.short_bio is too short."] else [])
  ++ (if !pyStartsWith profile_source_url "http" then
    ["candidate_profile.profile_source_url must be a valid URL."] else [])
  ++ profileLinkErrs profile_source_url sources
  ++ (if profile_image_url ≠ "" && !pyStartsWith profile_image_url "http" then
    ["candidate_profile.profile_image_url must be a valid URL when provided."] else [])
  ++ (if profile_image_source_url ≠ "" && !pyStartsWith profile_image_source_url "http" then
    ["candidate_profile.profile_image_source_url must be a valid URL when provided."] else [])
  ++ (if candidate_name ≠ ""
        && (existing_candidates.map normalize_candidate_name).contains
             (normalize_candidate_name candidate_name) then
    ["Candidate has already been profiled in earlier posts."] else [])

/-- Candidate-profile rule block (lines 473-524), run on the parsed profile
(or the empty one when `candidate_profile` was not an object). -/
def profileTail (cp : CandidateProfile) (sources : List Source)
    (existing_candidates : List String)
    (title excerpt content_html_lower : String) : List String :=
  profileFieldErrs cp sources existing_candidates
  ++ candTokenErrs (normalizeWs cp.candidate_name) title excerpt content_html_lower

/-- SEO keyphrase-presence checks (lines 542-555), guarded by a non-empty
keyphrase. -/
def seoPresenceErrs (focus_keyphrase title slug excerpt content_html_lower
    meta_title meta_description : String) : List String :=
  let focus_slug := joinHyphen (alnumRuns focus_keyphrase)
  if focus_keyphrase ≠ "" then
    (if !containsSubstr (pyLower title) focus_keyphrase then
      ["Title should include seo.focus_keyphrase."] else [])
    ++ (if !containsSubstr (pyLower excerpt) focus_keyphrase then
      ["Excerpt should include seo.focus_keyphrase."] else [])
    ++ (if !containsSubstr content_html_lower focus_keyphrase then
      ["content_html should include seo.focus_keyphrase."] else [])
    ++ (if !containsSubstr (pyLower meta_title) focus_keyphrase then
      ["seo.meta_title should include seo.focus_keyphrase."] else [])
    ++ (if !containsSubstr (pyLower meta_description) focus_keyphrase then
      ["seo.meta_description should include seo.focus_keyphrase."] else [])
    ++ (if focus_slug ≠ "" && !containsSubstr slug focus_slug then
      ["Slug should include the focus keyphrase in kebab-case."] else [])
  else []

/-- SEO slug-hint alignment check (lines 557-559). -/
def seoHintErrs (seo_slug_hint slug : String) : List String :=
  let normalized_hint := joinHyphen (alnumRuns seo_slug_hint)
  if normalized_hint ≠ "" && normalized_hint ≠ slug then
    ["seo.seo_slug_hint should align with the final slug."] else []

/-- SEO rule block (lines 530-559), run on the parsed seo object (or the empty
one when `seo` was not an object). -/
def seoTail (s : Seo) (title slug excerpt content_html_lower : String) : List String :=
  let focus_keyphrase := pyLower (pyStrip s.focus_keyphrase)
  let meta_title := pyStrip s.meta_title
  let meta_description := pyStrip s.meta_description
  (if pyLen focus_keyphrase < 8 then
    ["seo.focus_keyphrase is too short."] else [])
  ++ (if !(45 ≤ pyLen meta_title && pyLen meta_title ≤ 65) then
    ["seo.meta_title should be between 45 and 65 characters."] else [])
  ++ (if !(130 ≤ pyLen meta_description && pyLen meta_description ≤ 170) then
    ["seo.meta_description should be between 130 and 170 characters."] else [])
  ++ seoPresenceErrs focus_keyphrase title slug excerpt content_html_lower
      meta_title meta_description
  ++ seoHintErrs (pyLower (pyStrip s.seo_slug_hint)) slug

/-- The per-fact loop of the key_facts block (lines 565-580), with Python's
1-based `enumerate` index.  A non-numeric confidence `continue`s, skipping the
URL-count check for that entry. -/
def keyFactErrs (min_confidence : Int) : Nat → List FactItem → List String
  | _, [] => []
  | i, FactItem.notObject :: rest =>
    ("key_facts[" ++ toString i ++ "] is not an object.")
      :: keyFactErrs min_confidence (i + 1) rest
  | i, FactItem.fact conf urls :: rest =>
    (match conf with
     | ConfidenceVal.nonNumeric =>
       ["key_facts[" ++ toString i ++ "] confidence is not numeric."]
     | ConfidenceVal.num c =>
       (if (match urls with | none => true | some l => l.length < 2) then
         ["key_facts[" ++ toString i ++ "] must have at least 2 supporting_source_urls."]
       else [])
       ++ (if c < min_confidence then
         ["key_facts[" ++ toString i ++ "] confidence " ++ toString c
           ++ " is below minimum " ++ toString min_confidence ++ "."]
       else []))
    ++ keyFactErrs min_confidence (i + 1) rest

/-- key_facts block (lines 561-580). -/
def keyFactsBlock (min_confidence : Int) : Option (List FactItem) → List String
  | none => ["key_facts must be a non-empty list."]
  | some [] => ["key_facts must be a non-empty list."]
  | some facts => keyFactErrs min_confidence 1 facts

/-- Everything from the `sources` isinstance check onwards (lines 444-581):
a non-list `sources` returns immediately, otherwise the source, profile, SEO
and key-facts blocks all run. -/
def sourcesOnward (p : Payload) (existing_candidates : List String)
    (min_sources : Nat) (min_confidence : Int)
    (title slug excerpt content_html_lower : String) : List String :=
  match p.sources with
  | none => ["sources must be a list."]
  | some sources =>
    sourceCountErrs min_sources sources
    ++ domainCountErrs min_sources sources
    ++ (match p.candidate_profile with
        | none => "candidate_profile must be an object."
            :: profileTail emptyProfile sources existing_candidates
                 title excerpt content_html_lower
        | some cp => profileTail cp sources existing_candidates
            title excerpt content_html_lower)
    ++ (match p.seo with
        | none => "seo must be an object."
            :: seoTail emptySeo title slug excerpt content_html_lower
        | some s => seoTail s title slug excerpt content_html_lower)
    ++ keyFactsBlock min_confidence p.key_facts

/-- `validate_payload` (lines 394-581).  A skip draft and an unrecognized
status return early; a non-list `sources` returns with the errors collected so
far; otherwise every rule block contributes to one violation list. -/
def validatePayload (p : Payload) (existing_titles existing_candidates : List String)
    (min_sources : Nat) (min_confidence : Int) : List String :=
  if p.status ≠ "publish" && p.status ≠ "skip" then [statusMsg]
  else if p.status = "skip" then skipErrs p.reason
  else
    let title := pyStrip p.title
    let slug := pyStrip p.slug
    let excerpt := pyStrip p.excerpt
    let content_html := pyStrip p.content_html
    let content_html_lower := pyLower content_html
    titleErrs title existing_titles
    ++ slugErrs slug
    ++ excerptErrs excerpt
    ++ topicKeywordErrs p.topic_keywords
    ++ contentErrs content_html
    ++ sourcesOnward p existing_candidates min_sources min_confidence
        title slug excerpt content_html_lower

/-! ### SEO normalization (`normalize_seo_fields`, lines 333-379) -/

/-- `"-".join(part for part in (a, b) if part)` (line 371). -/
def joinNonempty (a b : String) : String :=
  String.intercalate "-" (([a, b]).filter (fun p => p ≠ ""))

/-- The focus keyphrase derivation of `normalize_seo_fields` (lines 345-349):
the existing keyphrase, or the first four significant title words, or the
fixed default. -/
def seoFocusKeyphrase (p : Payload) : String :=
  let seo := p.seo.getD emptySeo
  let fk0 := normalizeWs seo.focus_keyphrase
  if fk0 = "" then
    let words := (alnumRuns (pyLower (normalizeWs p.title))).filter (fun w => pyLen w > 2)
    let joined := String.intercalate " " (words.take 4)
    if joined = "" then "nepal election candidate profile" else joined
  else fk0

/-- The meta title before window expansion (lines 351-353): the existing one
or the title, with the title-cased keyphrase prepended when missing. -/
def seoMetaTitle1 (p : Payload) (focus_keyphrase : String) : String :=
  let seo := p.seo.getD emptySeo
  let meta_title0 :=
    let m := normalizeWs seo.meta_title
    if m = "" then normalizeWs p.title else m
  if !containsSubstr (pyLower meta_title0) (pyLower focus_keyphrase) then
    pyStrip (pyTitleCase focus_keyphrase ++ ": " ++ meta_title0)
  else meta_title0

/-- The meta description before window expansion (lines 357-359). -/
def seoMetaDescription1 (p : Payload) (focus_keyphrase : String) : String :=
  let seo := p.seo.getD emptySeo
  let meta_description0 :=
    let m := normalizeWs seo.meta_description
    if m = "" then normalizeWs p.excerpt else m
  if !containsSubstr (pyLower meta_description0) (pyLower focus_keyphrase) then
    pyStripChars [':', ' '] (focus_keyphrase ++ ": " ++ meta_description0)
  else meta_description0

/-- The slug re-canonicalization of `normalize_seo_fields` (lines 368-374):
canonicalize the slug, and prepend the keyphrase slug when absent. -/
def finishSlug (p : Payload) (focus_keyphrase : String) : String :=
  let slug0 := trim_slug p.slug 120
  let focus_slug := joinHyphen (alnumRuns (pyLower focus_keyphrase))
  if focus_slug ≠ "" && !containsSubstr slug0 focus_slug then
    trim_slug (joinNonempty focus_slug slug0) 120
  else slug0

/-- The final update of `normalize_seo_fields` (lines 363-379).  The
intermediate `seo_slug_hint` assignment of line 366 is dead — line 377
overwrites it with the final slug — so only the final value appears. -/
def finishSeo (p : Payload) (focus_keyphrase meta_title meta_description : String) : Payload :=
  { p with
    slug := finishSlug p focus_keyphrase,
    seo := some { focus_keyphrase := focus_keyphrase,
                  meta_title := meta_title,
                  meta_description := meta_description,
                  seo_slug_hint := finishSlug p focus_keyphrase } }

/-- `normalize_seo_fields` (lines 333-379).  The fuel feeds the two
`expand_to_min_chars` calls; `none` means one of them ran out of fuel. -/
def normalize_seo_fields (fuel : Nat) (p : Payload) : Option Payload :=
  if p.status ≠ "publish" then some p
  else
    match expand_to_min_chars fuel (seoMetaTitle1 p (seoFocusKeyphrase p)) 45 65
        (normalizeWs p.title) with
    | none => none
    | some meta_title =>
      match expand_to_min_chars fuel (seoMetaDescription1 p (seoFocusKeyphrase p)) 130 170
          (if normalizeWs p.excerpt = "" then normalizeWs p.title else normalizeWs p.excerpt) with
      | none => none
      | some meta_description =>
        some (finishSeo p (seoFocusKeyphrase p) meta_title meta_description)

/-! ### gemini_autopost.py -/

namespace Gemini

/-- gemini_autopost.py `trim_to_max_chars` (lines 159-162): unlike the other
script it always backs up to the last space (a no-op when there is none) and
never strips plain trailing whitespace first. -/
def trim_to_max_chars (text : String) (max_chars : Nat) : String :=
  let text := normalizeWs text
  if pyLen text ≤ max_chars then text
  else pyRstripChars [' ', ',', ';', ':', '-'] ⟨rsplitLastSpaceL (text.data.take max_chars)⟩

/-- gemini_autopost.py `trim_slug` (lines 164-165): hyphen-join of the
alphanumeric runs, clipped to 120 characters, hyphens stripped — with no
fallback for an empty result. -/
def trim_slug (slug : String) : String :=
  pyStripChars ['-'] ⟨(joinHyphen (alnumRuns (pyLower (normalizeWs slug)))).data.take 120⟩

/-- The payload shape read by gemini_autopost.py's validator. -/
structure GPayload where
  status : String
  reason : String
  candidate_name : String
  sources : List Source
deriving DecidableEq, Repr

/-- gemini_autopost.py `validate_payload` (lines 191-205): a skip draft only
needs a truthy reason; otherwise check the candidate against the corpus and
count distinct derived source domains. -/
def validate_payload (p : GPayload) (candidates : List String)
    (min_sources : Nat) : List String :=
  if p.status = "skip" then
    if p.reason = "" then ["Skip reason missing"] else []
  else
    let cand_name := pyLower p.candidate_name
    (if candidates.any (fun c => containsSubstr (pyLower c) cand_name) then
      ["Candidate already exists"] else [])
    ++ (if ((p.sources.map (fun s => domain_from_url s.url)).dedup).length < min_sources then
      ["Not enough unique sources (found " ++ toString p.sources.length ++ ")"] else [])

/-- Outcome of one `client.models.generate_content` call as the retry loop in
`run_gemini` (lines 118-149) distinguishes them. -/
inductive GenOutcome
  | success
  | rateLimit
  | otherError
deriving DecidableEq, Repr

/-- Result of `run_gemini`'s retry loop. -/
inductive GenResult
  | ok
  | fatalRateLimit
  | fatalOther
deriving DecidableEq, Repr

/-- `max_retries = 3` (line 119). -/
def max_retries : Nat := 3

/-- `base_wait = 30` seconds (line 120). -/
def base_wait : Nat := 30

/-- The `for attempt in range(max_retries)` loop of `run_gemini`
(lines 122-149): success returns; a rate limit on a non-final attempt sleeps
`base_wait * (attempt + 1)` and retries; a rate limit on the final attempt and
any other error raise immediately.  Returns the result together with the
recorded backoff waits. -/
def geminiGo (outcomes : Nat → GenOutcome) : Nat → Nat → List Nat → GenResult × List Nat
  | _, 0, waits => (GenResult.fatalRateLimit, waits)
  | attempt, rem + 1, waits =>
    match outcomes attempt with
    | GenOutcome.success => (GenResult.ok, waits)
    | GenOutcome.otherError => (GenResult.fatalOther, waits)
    | GenOutcome.rateLimit =>
      if attempt < max_retries - 1 then
        geminiGo outcomes (attempt + 1) rem (waits ++ [base_wait * (attempt + 1)])
      else (GenResult.fatalRateLimit, waits)

/-- The observable retry behaviour of `run_gemini` against a sequence of call
outcomes. -/
def run_gemini (outcomes : Nat → GenOutcome) : GenResult × List Nat :=
  geminiGo outcomes 0 max_retries []

end Gemini

/-! ### Run coordination (`acquire_lock` lines 663-674, `main` lines 723-804) -/

/-- Observable pipeline steps of `main` that matter to lock-contention claims. -/
inductive RunEvent
  | corpusTitlesRead
  | corpusCandidatesRead
  | generated
  | inserted
deriving DecidableEq, Repr

/-- Result of `acquire_lock(stale_after_minutes)`: whether the lock was taken,
the lock file afterwards (its mtime), how many exclusive-create calls ran, and
whether a stale marker was deleted.  `acquired = false` is the `LockHeldError`
path. -/
structure AcquireOutcome where
  acquired : Bool
  lockAfter : Option Int
  createAttempts : Nat
  deletedStale : Bool
deriving DecidableEq, Repr

/-- `acquire_lock` (lines 663-674) over an abstract clock: an existing marker
strictly older than `stale_after_minutes * 60` seconds is unlinked and the
exclusive create runs once; a younger (or equally old) marker raises
`LockHeldError`; an absent marker is created directly. -/
def acquire_lock (now : Int) (stale_after_minutes : Int) (lock : Option Int) : AcquireOutcome :=
  match lock with
  | some mtime =>
    if now - mtime > stale_after_minutes * 60 then
      { acquired := true, lockAfter := some now, createAttempts := 1, deletedStale := true }
    else
      { acquired := false, lockAfter := some mtime, createAttempts := 0, deletedStale := false }
  | none => { acquired := true, lockAfter := some now, createAttempts := 1, deletedStale := false }

/-- Terminal observation of a `main` run. -/
structure RunResult where
  exitCode : Int
  events : List RunEvent
  lockAfter : Option Int
deriving DecidableEq, Repr

/-- The `main` control flow around the lock (lines 735-804): on
`LockHeldError` log and return exit code 0 with no corpus read and the
pre-existing marker untouched; otherwise read the corpus (titles then
candidates), run the rest of the pipeline (abstracted as its events and exit
code), and release the lock in the `finally` block. -/
def mainRun (now staleMinutes : Int) (lock : Option Int)
    (rest : List RunEvent × Int) : RunResult :=
  let acq := acquire_lock now staleMinutes lock
  if acq.acquired then
    { exitCode := rest.2,
      events := RunEvent.corpusTitlesRead :: RunEvent.corpusCandidatesRead :: rest.1,
      lockAfter := none }
  else
    { exitCode := 0, events := [], lockAfter := acq.lockAfter }

/-! ### Lemmas for long-content reasoning -/

theorem string_data_append (a b : String) : (a ++ b).data = a.data ++ b.data := by
  cases a; cases b; rfl

theorem startsL_append (n xs ys : List Char) (h : startsL n xs = true) :
    startsL n (xs ++ ys) = true := by
  induction n generalizing xs with
  | nil => simp [startsL]
  | cons p ps ih =>
    cases xs with
    | nil => simp [startsL] at h
    | cons c cs =>
      simp only [startsL, Bool.and_eq_true] at h
      simp only [List.cons_append, startsL, Bool.and_eq_true]
      exact ⟨h.1, ih cs h.2⟩

theorem containsSubL_append_right (n xs ys : List Char) (h : containsSubL n ys = true) :
    containsSubL n (xs ++ ys) = true := by
  induction xs with
  | nil => simpa using h
  | cons x xs ih =>
    simp only [List.cons_append, containsSubL, Bool.or_eq_true]
    exact Or.inr ih

theorem countFaqAux_zero (cs : List Char) : countFaqAux 0 cs = 0 := by
  cases cs <;> rfl

theorem countFaqAux_skip (xs ys : List Char) :
    (∀ c ∈ xs, ¬ c.toLower = '<') →
    ∀ fuel, countFaqAux fuel (xs ++ ys) = countFaqAux (fuel - xs.length) ys := by
  induction xs with
  | nil => intro _ fuel; simp
  | cons x xs ih =>
    intro h fuel
    have hx : ¬ (('<' : Char) = x.toLower) := fun hh => (h x (by simp)) hh.symm
    cases fuel with
    | zero => simp [countFaqAux_zero]
    | succ fuel =>
      have hmatch : matchH3At (x :: (xs ++ ys)) = none := by
        simp [matchH3At, matchCI, hx]
      simp only [List.cons_append, countFaqAux, List.append_eq, hmatch]
      rw [ih (fun c hc => h c (by simp [hc])) fuel]
      congr 1
      simp only [List.length_cons]
      omega

theorem pyStripL_eq_self {cs : List Char} {a b : Char}
    (ha : cs.head? = some a) (hpa : isPySpace a = false)
    (hb : cs.getLast? = some b) (hpb : isPySpace b = false) : pyStripL cs = cs := by
  cases cs with
  | nil => cases ha
  | cons x t =>
    have hxa : x = a := by simpa using ha
    subst hxa
    have h1 : (x :: t).dropWhile isPySpace = x :: t := by
      simp [List.dropWhile, hpa]
    rw [pyStripL, h1, rdropWhileL]
    cases hrev : (x :: t).reverse with
    | nil => simp at hrev
    | cons y u =>
      have hy : y = b := by
        have h3 := List.head?_reverse (x :: t)
        rw [hrev, hb] at h3
        simpa using h3
      subst hy
      have h2 : (y :: u).dropWhile isPySpace = y :: u := by
        simp [List.dropWhile, hpb]
      rw [h2, ← hrev, List.reverse_reverse]

/-! ### Scenario B concrete draft (claim C4) -/

def c4sources : List Source :=
  (List.range 15).map (fun i =>
    { url := "https://example" ++ toString (i % 5 + 1) ++ ".com/page" ++ toString i,
      domain := "", publisher := "" })

def c4fill : String := ⟨List.replicate 1650 'z'⟩

def c4tail : String :=
  "<h2>Ram Bahadur Thapa Nepal Election Candidate Overview</h2><h2>FAQ</h2><h3>What is his platform?</h3><p>Policy details.</p><h3>Where does he stand?</h3><p>Regional outlook.</p><h3>When is the vote?</h3><p>On 2026-03-05.</p>"

def c4content : String := c4fill ++ c4tail

def c4title : String := "Ram Bahadur Thapa Nepal Election Candidate Profile"

def c4slug : String := "nepal-election-candidate-ram-bahadur-thapa"

def c4excerpt : String :=
  "Ram Bahadur Thapa is a Nepal election candidate profiled with policy positions, background, sourced facts, and outlook for the 2026 vote across many districts."

def c4profile : CandidateProfile where
  candidate_name := "Ram Bahadur Thapa"
  election_name := "Nepal General Election 2026"
  election_date := "2026-03-05"
  party := "Unity Party"
  constituency := "Kathmandu 4"
  current_position := "Member of Parliament"
  short_bio := "Ram Bahadur Thapa is a senior lawmaker from Kathmandu with two decades of public service and policy work."
  profile_source_url := "https://example1.com/page0"
  profile_image_url := ""
  profile_image_source_url := ""

def c4seo : Seo where
  focus_keyphrase := "Nepal Election Candidate"
  meta_title := "Nepal Election Candidate Ram Bahadur Thapa 2026 Profile"
  meta_description := "Nepal election candidate Ram Bahadur Thapa: profile, policy positions, career timeline, controversies, and electoral outlook for the 2026 national vote."
  seo_slug_hint := "nepal-election-candidate-ram-bahadur-thapa"

def c4facts : List FactItem :=
  [FactItem.fact (ConfidenceVal.num 90)
    (some ["https://example1.com/page0", "https://example2.com/page1"])]

/-- The Scenario B draft: passes every rule except the distinct-domain floor
(15 sources but only 5 distinct domains, validated with min_sources = 12). -/
def c4payload : Payload where
  status := "publish"
  reason := ""
  title := c4title
  slug := c4slug
  excerpt := c4excerpt
  topic_keywords := some ["nepal", "election", "candidate"]
  content_html := c4content
  sources := some c4sources
  candidate_profile := some c4profile
  seo := some c4seo
  key_facts := some c4facts

theorem c4content_data : c4content.data = c4fill.data ++ c4tail.data :=
  string_data_append c4fill c4tail

theorem c4fill_data : c4fill.data = List.replicate 1650 'z' := rfl

set_option maxRecDepth 4000 in
theorem c4tail_len : c4tail.data.length = 224 := by decide

theorem c4fill_no_lt : ∀ c ∈ c4fill.data, ¬ c.toLower = '<' := by
  intro c hc
  rw [c4fill_data, List.mem_replicate] at hc
  rw [hc.2]
  decide

theorem c4strip : pyStrip c4content = c4content := by
  have hh : c4content.data.head? = some 'z' := by
    rw [c4content_data, c4fill_data]
    rfl
  have hl : c4content.data.getLast? = some '>' := by
    rw [c4content_data]
    rw [List.getLast?_append]
    decide
  show (⟨pyStripL c4content.data⟩ : String) = c4content
  rw [pyStripL_eq_self hh (by decide) hl (by decide)]

theorem c4len : pyLen c4content = 1874 := by
  rw [pyLen, lenAux_eq, c4content_data, List.length_append, c4fill_data,
    List.length_replicate, c4tail_len]

theorem c4lower_data :
    (pyLower c4content).data
      = c4fill.data.map Char.toLower ++ c4tail.data.map Char.toLower := by
  show (c4content.data.map Char.toLower) = _
  rw [c4content_data, List.map_append]

theorem c4faq_sub : containsSubstr (pyLower c4content) "faq" = true := by
  rw [containsSubstr, c4lower_data]
  exact containsSubL_append_right _ _ _ (by decide)

theorem c4fk_sub : containsSubstr (pyLower c4content) "nepal election candidate" = true := by
  rw [containsSubstr, c4lower_data]
  exact containsSubL_append_right _ _ _ (by decide)

theorem c4tok_ram : containsSubstr (pyLower c4content) "ram" = true := by
  rw [containsSubstr, c4lower_data]
  exact containsSubL_append_right _ _ _ (by decide)

theorem c4tok_bahadur : containsSubstr (pyLower c4content) "bahadur" = true := by
  rw [containsSubstr, c4lower_data]
  exact containsSubL_append_right _ _ _ (by decide)

theorem c4tok_thapa : containsSubstr (pyLower c4content) "thapa" = true := by
  rw [containsSubstr, c4lower_data]
  exact containsSubL_append_right _ _ _ (by decide)

theorem c4faq_count : faq_question_count c4content = 3 := by
  rw [faq_question_count, c4content_data, lenAux_eq, List.length_append, c4tail_len]
  rw [countFaqAux_skip _ _ c4fill_no_lt]
  rw [c4fill_data, List.length_replicate]
  norm_num
  decide

theorem c4contentErrs : contentErrs c4content = [] := by
  rw [contentErrs, c4len, c4faq_sub, c4faq_count]
  norm_num

set_option maxRecDepth 4000 in
theorem c4unfold : validatePayload c4payload [] [] 12 85 =
    titleErrs (pyStrip c4title) [] ++ slugErrs (pyStrip c4slug)
    ++ excerptErrs (pyStrip c4excerpt)
    ++ topicKeywordErrs (some ["nepal", "election", "candidate"])
    ++ contentErrs (pyStrip c4content)
    ++ (sourceCountErrs 12 c4sources ++ domainCountErrs 12 c4sources
        ++ profileTail c4profile c4sources [] (pyStrip c4title) (pyStrip c4excerpt)
            (pyLower (pyStrip c4content))
        ++ seoTail c4seo (pyStrip c4title) (pyStrip c4slug) (pyStrip c4excerpt)
            (pyLower (pyStrip c4content))
        ++ keyFactsBlock 85 (some c4facts)) := rfl

set_option maxRecDepth 8000 in
theorem c4title_blk : titleErrs (pyStrip c4title) [] = [] := by decide

set_option maxRecDepth 4000 in
theorem c4slug_blk : slugErrs (pyStrip c4slug) = [] := by decide

set_option maxRecDepth 4000 in
theorem c4excerpt_blk : excerptErrs (pyStrip c4excerpt) = [] := by decide

theorem c4topic_blk : topicKeywordErrs (some ["nepal", "election", "candidate"]) = [] := by decide

theorem c4content_blk : contentErrs (pyStrip c4content) = [] := by
  rw [c4strip]; exact c4contentErrs

set_option maxRecDepth 40000 in
theorem c4srccount_blk : sourceCountErrs 12 c4sources = [] := by decide

set_option maxRecDepth 40000 in
theorem c4domain_blk : domainCountErrs 12 c4sources
    = ["Need at least 12 unique source domains; found 5."] := by decide

set_option maxRecDepth 40000 in
theorem c4proffield_blk : profileFieldErrs c4profile c4sources [] = [] := by decide

set_option maxRecDepth 8000 in
theorem c4toks : (title_tokens (normalizeWs c4profile.candidate_name)).filter
    (fun t => pyLen t ≥ 3) = ["ram", "bahadur", "thapa"] := by decide

set_option maxRecDepth 8000 in
theorem c4cand_title : (( ["ram", "bahadur", "thapa"] : List String).filter
    (fun t => containsSubstr (pyLower (pyStrip c4title)) t)).length = 3 := by decide

set_option maxRecDepth 8000 in
theorem c4cand_excerpt : (( ["ram", "bahadur", "thapa"] : List String).filter
    (fun t => containsSubstr (pyLower (pyStrip c4excerpt)) t)).length = 3 := by decide

theorem c4candtok_blk : candTokenErrs (normalizeWs c4profile.candidate_name)
    (pyStrip c4title) (pyStrip c4excerpt) (pyLower (pyStrip c4content)) = [] := by
  rw [c4strip]
  simp only [candTokenErrs, c4toks]
  rw [if_pos (by decide : (["ram", "bahadur", "thapa"] : List String) ≠ [])]
  have hcf : (List.filter (fun t => containsSubstr (pyLower c4content) t)
      ["ram", "bahadur", "thapa"]) = ["ram", "bahadur", "thapa"] := by
    simp [List.filter_cons, c4tok_ram, c4tok_bahadur, c4tok_thapa]
  rw [c4cand_title, c4cand_excerpt, hcf]
  norm_num

set_option maxRecDepth 8000 in
theorem c4pres_blk : seoPresenceErrs "nepal election candidate" (pyStrip c4title)
    (pyStrip c4slug) (pyStrip c4excerpt) (pyLower c4content)
    (pyStrip c4seo.meta_title) (pyStrip c4seo.meta_description) = [] := by
  simp only [seoPresenceErrs]
  rw [c4fk_sub]
  decide

set_option maxRecDepth 8000 in
theorem c4seo_blk : seoTail c4seo (pyStrip c4title) (pyStrip c4slug) (pyStrip c4excerpt)
    (pyLower (pyStrip c4content)) = [] := by
  rw [c4strip]
  simp only [seoTail]
  rw [show pyLower (pyStrip c4seo.focus_keyphrase) = "nepal election candidate" from by decide]
  rw [c4pres_blk]
  decide

set_option maxRecDepth 8000 in
theorem c4keyfacts_blk : keyFactsBlock 85 (some c4facts) = [] := by decide

/-- Claim C4 (amended): the Scenario B draft — it passes every other rule,
has 15 sources but only 5 distinct domains, and is validated with
`min_sources = 12` — receives exactly ONE violation, the domain-count one.
The source-count rule checks `len(sources) < 12` and 15 sources satisfy it,
so no source-count violation is emitted. -/
theorem scenario_b_single_domain_violation : validatePayload c4payload [] [] 12 85
    = ["Need at least 12 unique source domains; found 5."] := by
  rw [c4unfold, c4title_blk, c4slug_blk, c4excerpt_blk, c4topic_blk, c4content_blk,
      c4srccount_blk, c4domain_blk]
  simp only [profileTail]
  rw [c4proffield_blk, c4candtok_blk, c4seo_blk, c4keyfacts_blk]
  simp

/-- Claim C4, counterexample: the claimed "exactly two violations" is false —
the Scenario B draft receives one violation, not two. -/
theorem scenario_b_not_two_violations :
    (validatePayload c4payload [] [] 12 85).length ≠ 2 := by
  rw [c4unfold, c4title_blk, c4slug_blk, c4excerpt_blk, c4topic_blk, c4content_blk,
      c4srccount_blk, c4domain_blk]
  simp only [profileTail]
  rw [c4proffield_blk, c4candtok_blk, c4seo_blk, c4keyfacts_blk]
  simp

/-! ### Which block can emit the near-duplicate violation (claim C1) -/

theorem mem_ite_singleton {a m : String} {c : Prop} [Decidable c]
    (h : a ∈ (if c then [m] else ([] : List String))) : a = m := by
  split at h
  · simpa using h
  · simp at h

theorem ne_of_head_ne {s t : String} {a b : Char}
    (hs : s.data.head? = some a) (ht : t.data.head? = some b) (hab : a ≠ b) : s ≠ t := by
  intro h
  rw [h, ht] at hs
  exact hab (Option.some.inj hs).symm

theorem head_append_of_head (a : String) (b : String) {c : Char}
    (h : a.data.head? = some c) : (a ++ b).data.head? = some c := by
  rw [string_data_append]
  cases ha : a.data with
  | nil => rw [ha] at h; cases h
  | cons x t =>
    rw [ha] at h
    simpa using h

theorem sourceCountErrs_head (ms : Nat) (ss : List Source) (m : String)
    (h : m ∈ sourceCountErrs ms ss) : m.data.head? = some 'N' := by
  rw [mem_ite_singleton h]
  exact head_append_of_head _ _ (head_append_of_head _ _
    (head_append_of_head _ _ (head_append_of_head _ _ rfl)))

theorem domainCountErrs_head (ms : Nat) (ss : List Source) (m : String)
    (h : m ∈ domainCountErrs ms ss) : m.data.head? = some 'N' := by
  rw [mem_ite_singleton h]
  exact head_append_of_head _ _ (head_append_of_head _ _
    (head_append_of_head _ _ (head_append_of_head _ _ rfl)))

theorem keyFactErrs_head (mc : Int) :
    ∀ (i : Nat) (fs : List FactItem) (m : String), m ∈ keyFactErrs mc i fs →
      m.data.head? = some 'k' := by
  intro i fs
  induction fs generalizing i with
  | nil => intro m h; simp [keyFactErrs] at h
  | cons f fs ih =>
    intro m h
    cases f with
    | notObject =>
      simp only [keyFactErrs, List.mem_cons] at h
      rcases h with h | h
      · rw [h]
        exact head_append_of_head _ _ (head_append_of_head _ _ rfl)
      · exact ih (i + 1) m h
    | fact conf urls =>
      simp only [keyFactErrs, List.mem_append] at h
      rcases h with h | h
      · cases conf with
        | nonNumeric =>
          simp only [List.mem_singleton] at h
          rw [h]
          exact head_append_of_head _ _ (head_append_of_head _ _ rfl)
        | num c =>
          simp only [List.mem_append] at h
          rcases h with h | h
          · rw [mem_ite_singleton h]
            exact head_append_of_head _ _ (head_append_of_head _ _ rfl)
          · rw [mem_ite_singleton h]
            exact head_append_of_head _ _ (head_append_of_head _ _
              (head_append_of_head _ _ (head_append_of_head _ _
                (head_append_of_head _ _ rfl))))
      · exact ih (i + 1) m h

theorem not_mem_ite_singleton {a m : String} {c : Prop} [Decidable c] (h : a ≠ m) :
    a ∉ (if c then [m] else ([] : List String)) :=
  fun hm => h (mem_ite_singleton hm)

theorem dup_not_mem_slugErrs (s : String) :
    "Generated title appears to duplicate an existing topic." ∉ slugErrs s := by
  rw [slugErrs]
  exact not_mem_ite_singleton (by decide)

theorem dup_not_mem_excerptErrs (s : String) :
    "Generated title appears to duplicate an existing topic." ∉ excerptErrs s := by
  rw [excerptErrs]
  exact not_mem_ite_singleton (by decide)

theorem dup_not_mem_topicKeywordErrs (tk : Option (List String)) :
    "Generated title appears to duplicate an existing topic." ∉ topicKeywordErrs tk := by
  cases tk with
  | none => simp [topicKeywordErrs]
  | some l =>
    rw [topicKeywordErrs]
    exact not_mem_ite_singleton (by decide)

theorem dup_not_mem_contentErrs (c : String) :
    "Generated title appears to duplicate an existing topic." ∉ contentErrs c := by
  simp only [contentErrs, List.mem_append]
  rintro ((h | h) | h) <;> exact absurd (mem_ite_singleton h) (by decide)

theorem dup_not_mem_sourceCountErrs (ms : Nat) (ss : List Source) :
    "Generated title appears to duplicate an existing topic." ∉ sourceCountErrs ms ss := by
  intro h
  have hh := sourceCountErrs_head ms ss _ h
  exact absurd hh (by decide)

theorem dup_not_mem_domainCountErrs (ms : Nat) (ss : List Source) :
    "Generated title appears to duplicate an existing topic." ∉ domainCountErrs ms ss := by
  intro h
  have hh := domainCountErrs_head ms ss _ h
  exact absurd hh (by decide)

theorem not_mem_append {a : String} {l l' : List String} (h1 : a ∉ l) (h2 : a ∉ l') :
    a ∉ l ++ l' := fun h => (List.mem_append.1 h).elim h1 h2

theorem dup_not_mem_profileLinkErrs (u : String) (ss : List Source) :
    "Generated title appears to duplicate an existing topic." ∉ profileLinkErrs u ss := by
  rw [profileLinkErrs]
  split
  · exact not_mem_ite_singleton (by decide)
  · simp

theorem dup_not_mem_profileFieldErrs (cp : CandidateProfile) (ss : List Source)
    (cands : List String) :
    "Generated title appears to duplicate an existing topic." ∉ profileFieldErrs cp ss cands := by
  simp only [profileFieldErrs]
  refine not_mem_append (not_mem_append (not_mem_append (not_mem_append (not_mem_append (not_mem_append (not_mem_append (not_mem_append (not_mem_append (not_mem_append (not_mem_append (not_mem_append (not_mem_ite_singleton ?_) (not_mem_ite_singleton ?_)) (not_mem_ite_singleton ?_)) (not_mem_ite_singleton ?_)) (not_mem_ite_singleton ?_)) (not_mem_ite_singleton ?_)) (not_mem_ite_singleton ?_)) (not_mem_ite_singleton ?_)) (not_mem_ite_singleton ?_)) (dup_not_mem_profileLinkErrs _ _)) (not_mem_ite_singleton ?_)) (not_mem_ite_singleton ?_)) (not_mem_ite_singleton ?_)
  all_goals decide

theorem dup_not_mem_candTokenErrs (n t e c : String) :
    "Generated title appears to duplicate an existing topic." ∉ candTokenErrs n t e c := by
  simp only [candTokenErrs]
  split
  · refine not_mem_append (not_mem_append (not_mem_ite_singleton ?_) (not_mem_ite_singleton ?_)) (not_mem_ite_singleton ?_)
    all_goals decide
  · simp

theorem dup_not_mem_profileTail (cp : CandidateProfile) (ss : List Source)
    (cands : List String) (t e c : String) :
    "Generated title appears to duplicate an existing topic." ∉ profileTail cp ss cands t e c := by
  simp only [profileTail, List.mem_append]
  rintro (h | h)
  · exact dup_not_mem_profileFieldErrs _ _ _ h
  · exact dup_not_mem_candTokenErrs _ _ _ _ h

theorem dup_not_mem_seoPresenceErrs (fk t sl e c mt md : String) :
    "Generated title appears to duplicate an existing topic."
      ∉ seoPresenceErrs fk t sl e c mt md := by
  simp only [seoPresenceErrs]
  split
  · refine not_mem_append (not_mem_append (not_mem_append (not_mem_append (not_mem_append (not_mem_ite_singleton ?_) (not_mem_ite_singleton ?_)) (not_mem_ite_singleton ?_)) (not_mem_ite_singleton ?_)) (not_mem_ite_singleton ?_)) (not_mem_ite_singleton ?_)
    all_goals decide
  · simp

theorem dup_not_mem_seoHintErrs (hnt sl : String) :
    "Generated title appears to duplicate an existing topic." ∉ seoHintErrs hnt sl := by
  rw [seoHintErrs]
  exact not_mem_ite_singleton (by decide)

theorem dup_not_mem_seoTail (s : Seo) (t sl e c : String) :
    "Generated title appears to duplicate an existing topic." ∉ seoTail s t sl e c := by
  simp only [seoTail]
  refine not_mem_append (not_mem_append (not_mem_append (not_mem_append (not_mem_ite_singleton ?_) (not_mem_ite_singleton ?_)) (not_mem_ite_singleton ?_)) (dup_not_mem_seoPresenceErrs _ _ _ _ _ _ _)) (dup_not_mem_seoHintErrs _ _)
  all_goals decide

theorem dup_not_mem_keyFactsBlock (mc : Int) (kf : Option (List FactItem)) :
    "Generated title appears to duplicate an existing topic." ∉ keyFactsBlock mc kf := by
  cases kf with
  | none => simp [keyFactsBlock]
  | some fs =>
    cases fs with
    | nil => simp [keyFactsBlock]
    | cons f fs =>
      intro h
      have hh := keyFactErrs_head mc 1 (f :: fs) _ h
      exact absurd hh (by decide)

theorem dup_not_mem_sourcesOnward (p : Payload) (cands : List String) (ms : Nat) (mc : Int)
    (t sl e c : String) :
    "Generated title appears to duplicate an existing topic."
      ∉ sourcesOnward p cands ms mc t sl e c := by
  rw [sourcesOnward]
  cases p.sources with
  | none => simp
  | some ss =>
    refine not_mem_append (not_mem_append (not_mem_append (not_mem_append
      (dup_not_mem_sourceCountErrs _ _) (dup_not_mem_domainCountErrs _ _)) ?_) ?_)
      (dup_not_mem_keyFactsBlock _ _)
    · cases p.candidate_profile with
      | none =>
        intro h
        rcases List.mem_cons.1 h with h | h
        · exact absurd h (by decide)
        · exact dup_not_mem_profileTail _ _ _ _ _ _ h
      | some cp => exact dup_not_mem_profileTail _ _ _ _ _ _
    · cases p.seo with
      | none =>
        intro h
        rcases List.mem_cons.1 h with h | h
        · exact absurd h (by decide)
        · exact dup_not_mem_seoTail _ _ _ _ _ h
      | some s => exact dup_not_mem_seoTail _ _ _ _ _

theorem dup_mem_validate_imp_title (p : Payload) (ts cs : List String) (ms : Nat) (mc : Int)
    (h : "Generated title appears to duplicate an existing topic."
      ∈ validatePayload p ts cs ms mc) :
    "Generated title appears to duplicate an existing topic."
      ∈ titleErrs (pyStrip p.title) ts := by
  rw [validatePayload] at h
  split at h
  · exact absurd (List.mem_singleton.1 h) (by decide)
  · split at h
    · rw [skipErrs] at h
      exact absurd (mem_ite_singleton h) (by decide)
    · rcases List.mem_append.1 h with h | h
      rcases List.mem_append.1 h with h | h
      rcases List.mem_append.1 h with h | h
      rcases List.mem_append.1 h with h | h
      rcases List.mem_append.1 h with h | h
      · exact h
      · exact absurd h (dup_not_mem_slugErrs _)
      · exact absurd h (dup_not_mem_excerptErrs _)
      · exact absurd h (dup_not_mem_topicKeywordErrs _)
      · exact absurd h (dup_not_mem_contentErrs _)
      · exact absurd h (dup_not_mem_sourcesOnward _ _ _ _ _ _ _ _)

/-- A publish draft whose title is shorter than 24 characters and an exact
normalized duplicate of the corpus title "Nepal Election". -/
def c1payload : Payload where
  status := "publish"
  reason := ""
  title := "Nepal Election"
  slug := ""
  excerpt := ""
  topic_keywords := none
  content_html := ""
  sources := none
  candidate_profile := none
  seo := none
  key_facts := none

set_option maxRecDepth 8000 in
/-- Claim C1, counterexample: this draft's title is both shorter than 24
characters and a near-duplicate of a corpus title, yet `validate_payload`
does not report the near-duplicate violation (the `elif` chain stops at the
length violation), refuting "receives both the length violation and the
near-duplicate violation". -/
theorem short_near_duplicate_both_violations_cex :
    pyLen (pyStrip c1payload.title) < 24
    ∧ near_duplicate_title (pyStrip c1payload.title) ["Nepal Election"] = true
    ∧ "Title is too short." ∈ validatePayload c1payload ["Nepal Election"] [] 12 85
    ∧ "Generated title appears to duplicate an existing topic."
        ∉ validatePayload c1payload ["Nepal Election"] [] 12 85 := by
  refine ⟨by decide, by decide, by decide, by decide⟩

set_option maxRecDepth 2000 in
/-- Claim C1 (amended): rule groups accumulate violations, but the three title
checks form an `if/elif/elif` chain; a publish draft with a non-empty title
shorter than 24 characters receives the length violation and can never
receive the near-duplicate violation, whatever the corpus and thresholds. -/
theorem title_rules_exclusive (p : Payload) (ts cs : List String) (ms : Nat) (mc : Int)
    (hpub : p.status = "publish") (hne : pyStrip p.title ≠ "")
    (hlen : (pyStrip p.title).length < 24) :
    "Title is too short." ∈ validatePayload p ts cs ms mc ∧
    "Generated title appears to duplicate an existing topic."
      ∉ validatePayload p ts cs ms mc := by
  have htb : titleErrs (pyStrip p.title) ts = ["Title is too short."] := by
    rw [titleErrs, if_neg hne, pyLen_eq, if_pos hlen]
  constructor
  · have e : validatePayload p ts cs ms mc =
        titleErrs (pyStrip p.title) ts ++ slugErrs (pyStrip p.slug)
        ++ excerptErrs (pyStrip p.excerpt) ++ topicKeywordErrs p.topic_keywords
        ++ contentErrs (pyStrip p.content_html)
        ++ sourcesOnward p cs ms mc (pyStrip p.title) (pyStrip p.slug) (pyStrip p.excerpt)
            (pyLower (pyStrip p.content_html)) := by
      rw [validatePayload]
      rw [if_neg (by rw [hpub]; decide)]
      rw [if_neg (by rw [hpub]; decide)]
    rw [e, htb]
    simp
  · intro h
    have h2 := dup_mem_validate_imp_title p ts cs ms mc h
    rw [htb] at h2
    exact absurd (List.mem_singleton.1 h2) (by decide)

/-- Claim C1, witness for `title_rules_exclusive` at the concrete short
near-duplicate draft. -/
theorem title_rules_exclusive_witness :
    "Title is too short." ∈ validatePayload c1payload ["Nepal Election"] [] 12 85 ∧
    "Generated title appears to duplicate an existing topic."
      ∉ validatePayload c1payload ["Nepal Election"] [] 12 85 :=
  title_rules_exclusive c1payload ["Nepal Election"] [] 12 85 (by decide) (by decide) (by decide)
def slugOrHyphen (c : Char) : Bool := isSlugChar c || c == '-'

/-- No two adjacent hyphens. -/
def noDD : List Char → Bool
  | [] => true
  | [_] => true
  | a :: b :: t => !(a == '-' && b == '-') && noDD (b :: t)

theorem noDD_tail {c : Char} {t : List Char} (h : noDD (c :: t) = true) : noDD t = true := by
  cases t with
  | nil => rfl
  | cons d t =>
    simp only [noDD, Bool.and_eq_true] at h
    exact h.2

theorem isSlugChar_ne_hyphen {c : Char} (h : isSlugChar c = true) : c ≠ '-' := by
  intro hc
  rw [hc] at h
  simp [isSlugChar] at h

theorem kebabAux_of_good : ∀ (cs : List Char) (st : Bool),
    (∀ c ∈ cs, slugOrHyphen c = true) → noDD cs = true →
    cs.getLast? ≠ some '-' →
    (st = false → cs ≠ [] ∧ cs.head? ≠ some '-') →
    kebabAux st cs = true := by
  intro cs
  induction cs with
  | nil =>
    intro st _ _ _ hst
    cases st with
    | true => rfl
    | false => exact absurd rfl (hst rfl).1
  | cons c rest ih =>
    intro st hall hdd hlast hst
    have hco : slugOrHyphen c = true := hall c (List.mem_cons_self c rest)
    have hrest_all : ∀ x ∈ rest, slugOrHyphen x = true :=
      fun x hx => hall x (List.mem_cons_of_mem c hx)
    have hrest_dd : noDD rest = true := noDD_tail hdd
    have hrest_last : rest ≠ [] → rest.getLast? ≠ some '-' := by
      intro hne
      cases rest with
      | nil => exact absurd rfl hne
      | cons d t => rwa [List.getLast?_cons_cons] at hlast
    have hrest_last' : rest.getLast? ≠ some '-' := by
      cases rest with
      | nil => simp
      | cons d t => exact hrest_last (by simp)
    have hco' : isSlugChar c = true ∨ (c == '-') = true := by
      simpa [slugOrHyphen, Bool.or_eq_true] using hco
    cases st with
    | false =>
      have hc : c ≠ '-' := by
        intro hc
        exact (hst rfl).2 (by rw [hc]; rfl)
      have hslug : isSlugChar c = true := by
        rcases hco' with h | h
        · exact h
        · exact absurd (by simpa using h) hc
      show (isSlugChar c && kebabAux true rest) = true
      rw [hslug]
      simp only [Bool.true_and]
      exact ih true hrest_all hrest_dd hrest_last' (by intro h; simp at h)
    | true =>
      show (if isSlugChar c then kebabAux true rest else (c = '-' && kebabAux false rest)) = true
      by_cases hslug : isSlugChar c = true
      · rw [if_pos hslug]
        exact ih true hrest_all hrest_dd hrest_last' (by intro h; simp at h)
      · rw [if_neg (by simpa using hslug)]
        have hc : c = '-' := by
          rcases hco' with h | h
          · exact absurd h hslug
          · simpa using h
        have hrestne : rest ≠ [] := by
          intro hre
          subst hre
          subst hc
          simp at hlast
        have hhead : rest.head? ≠ some '-' := by
          cases rest with
          | nil => simp
          | cons d t =>
            subst hc
            simp only [noDD, Bool.and_eq_true] at hdd
            intro hd
            have hd2 : d = '-' := by simpa using hd
            rcases hdd with ⟨h1, _⟩
            rw [hd2] at h1
            simp at h1
        rw [hc]
        have hk := ih false hrest_all hrest_dd hrest_last' (fun _ => ⟨hrestne, hhead⟩)
        simp [hk]

theorem mem_of_take {α} {a : α} : ∀ (l : List α) (n : Nat), a ∈ l.take n → a ∈ l := by
  intro l
  induction l with
  | nil => intro n h; simp at h
  | cons b t ih =>
    intro n h
    cases n with
    | zero => simp at h
    | succ m =>
      rw [List.take_succ_cons] at h
      rcases List.mem_cons.1 h with h | h
      · exact h ▸ List.mem_cons_self _ _
      · exact List.mem_cons_of_mem _ (ih m h)

theorem dropWhile_eq_drop {α} (p : α → Bool) : ∀ l : List α, ∃ n, l.dropWhile p = l.drop n := by
  intro l
  induction l with
  | nil => exact ⟨0, rfl⟩
  | cons a t ih =>
    rw [List.dropWhile_cons]
    by_cases h : p a = true
    · rcases ih with ⟨n, hn⟩
      exact ⟨n + 1, by rw [if_pos h, List.drop_succ_cons, hn]⟩
    · exact ⟨0, by rw [if_neg h]; rfl⟩

theorem mem_of_drop {α} {a : α} : ∀ (n : Nat) (l : List α), a ∈ l.drop n → a ∈ l := by
  intro n
  induction n with
  | zero => intro l h; simpa using h
  | succ m ih =>
    intro l h
    cases l with
    | nil => simp at h
    | cons b t =>
      rw [List.drop_succ_cons] at h
      exact List.mem_cons_of_mem _ (ih t h)

theorem mem_of_dropWhile {α} {p : α → Bool} {a : α} {l : List α}
    (h : a ∈ l.dropWhile p) : a ∈ l := by
  rcases dropWhile_eq_drop p l with ⟨n, hn⟩
  rw [hn] at h
  exact mem_of_drop n l h

theorem rdropWhileL_eq_take (p : Char → Bool) (cs : List Char) :
    ∃ m, rdropWhileL p cs = cs.take m := by
  rcases dropWhile_eq_drop p cs.reverse with ⟨n, hn⟩
  refine ⟨cs.length - n, ?_⟩
  rw [rdropWhileL, hn, List.reverse_drop, List.length_reverse, List.reverse_reverse]

theorem mem_of_rdropWhileL {p : Char → Bool} {a : Char} {cs : List Char}
    (h : a ∈ rdropWhileL p cs) : a ∈ cs := by
  rcases rdropWhileL_eq_take p cs with ⟨m, hm⟩
  rw [hm] at h
  exact mem_of_take cs m h

theorem noDD_take : ∀ (cs : List Char) (n : Nat), noDD cs = true → noDD (cs.take n) = true := by
  intro cs
  induction cs with
  | nil => intro n _; simp [noDD]
  | cons a rest ih =>
    intro n h
    cases n with
    | zero => simp [noDD]
    | succ m =>
      rw [List.take_succ_cons]
      cases rest with
      | nil => simp [List.take_nil]; rfl
      | cons b t =>
        cases m with
        | zero => rfl
        | succ k =>
          rw [List.take_succ_cons]
          have h2 : noDD ((b :: t).take (k + 1)) = true := ih (k + 1) (noDD_tail h)
          rw [List.take_succ_cons] at h2
          simp only [noDD, Bool.and_eq_true] at h ⊢
          exact ⟨h.1, h2⟩

theorem noDD_drop : ∀ (n : Nat) (cs : List Char), noDD cs = true → noDD (cs.drop n) = true := by
  intro n
  induction n with
  | zero => intro cs h; simpa using h
  | succ m ih =>
    intro cs h
    cases cs with
    | nil => simp [noDD]
    | cons c t =>
      rw [List.drop_succ_cons]
      exact ih t (noDD_tail h)

theorem head?_take {cs : List Char} {n : Nat} {c : Char}
    (h : (cs.take n).head? = some c) : cs.head? = some c := by
  cases cs with
  | nil => simp at h
  | cons a t =>
    cases n with
    | zero => simp at h
    | succ m => simpa using h

theorem head?_dropWhile_not {p : Char → Bool} : ∀ {cs : List Char} {c : Char},
    (cs.dropWhile p).head? = some c → p c = false := by
  intro cs
  induction cs with
  | nil => intro c h; simp at h
  | cons a t ih =>
    intro c h
    rw [List.dropWhile_cons] at h
    split at h
    · exact ih h
    · next hpa =>
      have : a = c := by simpa using h
      rw [← this]
      simpa using hpa

theorem rdropWhileL_getLast_not {p : Char → Bool} {cs : List Char} {c : Char}
    (h : (rdropWhileL p cs).getLast? = some c) : p c = false := by
  rw [rdropWhileL, List.getLast?_reverse] at h
  exact head?_dropWhile_not h

theorem contains_eq_false {cs : List Char} {a : Char} (h : ∀ x ∈ cs, x ≠ a) :
    cs.contains a = false := by
  induction cs with
  | nil => rfl
  | cons b t ih =>
    have hb : ¬ (a = b) := fun hh => h b (List.mem_cons_self _ _) hh.symm
    have ht : t.contains a = false := ih (fun x hx => h x (List.mem_cons_of_mem _ hx))
    simp only [List.contains_cons, ht, Bool.or_false]
    exact beq_eq_false_iff_ne.mpr hb

theorem dropWhile_eq_self_of_all {α} {p : α → Bool} {l : List α}
    (h : ∀ c ∈ l, p c = false) : l.dropWhile p = l := by
  cases l with
  | nil => rfl
  | cons a t =>
    rw [List.dropWhile_cons, if_neg]
    simp [h a (List.mem_cons_self _ _)]

theorem rdropWhileL_eq_self {p : Char → Bool} {cs : List Char}
    (h : ∀ c ∈ cs, p c = false) : rdropWhileL p cs = cs := by
  rw [rdropWhileL, dropWhile_eq_self_of_all, List.reverse_reverse]
  intro c hc
  exact h c (List.mem_reverse.1 hc)

theorem pyStripL_eq_self_of_all {cs : List Char}
    (h : ∀ c ∈ cs, isPySpace c = false) : pyStripL cs = cs := by
  rw [pyStripL, dropWhile_eq_self_of_all h, rdropWhileL_eq_self h]

theorem collapseWsL_eq_self : ∀ cs : List Char,
    (∀ c ∈ cs, isPySpace c = false) → collapseWsL cs = cs := by
  intro cs
  induction cs with
  | nil => intro _; rfl
  | cons a rest ih =>
    intro h
    have ha : isPySpace a = false := h a (List.mem_cons_self _ _)
    have hr : ∀ c ∈ rest, isPySpace c = false :=
      fun c hc => h c (List.mem_cons_of_mem _ hc)
    cases rest with
    | nil => simp [collapseWsL, ha]
    | cons b t =>
      have hb : isPySpace b = false := hr b (List.mem_cons_self _ _)
      show collapseWsL (a :: b :: t) = a :: b :: t
      rw [collapseWsL]
      rw [if_neg (by simp [ha, hb])]
      rw [ih hr]
      simp [ha]

theorem normalizeWs_eq_self {s : String}
    (h : ∀ c ∈ s.data, isPySpace c = false) : normalizeWs s = s := by
  show (⟨pyStripL (collapseWsL s.data)⟩ : String) = s
  rw [collapseWsL_eq_self _ h, pyStripL_eq_self_of_all h]

theorem slugOrHyphen_not_space {c : Char} (h : slugOrHyphen c = true) :
    isPySpace c = false := by
  have h2 : isSlugChar c = true ∨ (c == '-') = true := by
    simpa [slugOrHyphen, Bool.or_eq_true] using h
  rcases h2 with hs | hh
  · by_contra hsp
    have hsp' : isPySpace c = true := by simpa using hsp
    simp only [isPySpace, Bool.or_eq_true, beq_iff_eq] at hsp'
    rcases hsp' with ((((rfl | rfl) | rfl) | rfl) | rfl) | rfl <;> simp [isSlugChar] at hs
  · have : c = '-' := by simpa using hh
    subst this
    decide

theorem alnumRunsAux_runs : ∀ (cs cur : List Char),
    (∀ c ∈ cur, isSlugChar c = true) →
    ∀ r ∈ alnumRunsAux cur cs, r ≠ [] ∧ ∀ c ∈ r, isSlugChar c = true := by
  intro cs
  induction cs with
  | nil =>
    intro cur hcur r hr
    rw [alnumRunsAux] at hr
    split at hr
    · simp at hr
    · next hne =>
      have : r = cur.reverse := by simpa using hr
      subst this
      refine ⟨by simpa using hne, fun c hc => hcur c (List.mem_reverse.1 hc)⟩
  | cons c rest ih =>
    intro cur hcur r hr
    rw [alnumRunsAux] at hr
    split at hr
    · next hslug =>
      refine ih (c :: cur) ?_ r hr
      intro x hx
      rcases List.mem_cons.1 hx with rfl | hx
      · exact hslug
      · exact hcur x hx
    · split at hr
      · exact ih [] (by simp) r hr
      · next hne =>
        rcases List.mem_cons.1 hr with rfl | hr
        · refine ⟨by simpa using hne, fun x hx => hcur x (List.mem_reverse.1 hx)⟩
        · exact ih [] (by simp) r hr

theorem noDD_of_no_hyphen : ∀ cs : List Char, (∀ c ∈ cs, c ≠ '-') → noDD cs = true := by
  intro cs
  induction cs with
  | nil => intro _; rfl
  | cons a rest ih =>
    intro h
    cases rest with
    | nil => rfl
    | cons b t =>
      have ha : a ≠ '-' := h a (List.mem_cons_self _ _)
      have hr : ∀ c ∈ b :: t, c ≠ '-' := fun c hc => h c (List.mem_cons_of_mem _ hc)
      show (!(a == '-' && b == '-') && noDD (b :: t)) = true
      rw [ih hr]
      simp [ha]

theorem noDD_append : ∀ (xs ys : List Char), noDD xs = true → noDD ys = true →
    (∀ a, xs.getLast? = some a → ∀ b, ys.head? = some b → ¬(a = '-' ∧ b = '-')) →
    noDD (xs ++ ys) = true := by
  intro xs
  induction xs with
  | nil => intro ys _ hys _; simpa using hys
  | cons x rest ih =>
    intro ys hxs hys hbd
    cases rest with
    | nil =>
      cases ys with
      | nil => rfl
      | cons y t =>
        show (!(x == '-' && y == '-') && noDD (y :: t)) = true
        rw [hys]
        have := hbd x rfl y rfl
        simp only [Bool.and_true]
        simp only [Bool.not_eq_true']
        rcases Decidable.em (x = '-') with hx | hx
        · rcases Decidable.em (y = '-') with hy | hy
          · exact absurd ⟨hx, hy⟩ this
          · simp [hy]
        · simp [hx]
    | cons x2 rest2 =>
      show (!(x == '-' && x2 == '-') && noDD ((x2 :: rest2) ++ ys)) = true
      have h1 : noDD ((x2 :: rest2) ++ ys) = true := by
        refine ih ys (noDD_tail hxs) hys ?_
        intro a ha b hb
        exact hbd a (by rwa [List.getLast?_cons_cons]) b hb
      rw [h1]
      simp only [noDD, Bool.and_eq_true] at hxs
      simp [hxs.1]

theorem getLast?_append_right {α} (l₁ : List α) {l₂ : List α} (h : l₂ ≠ []) :
    (l₁ ++ l₂).getLast? = l₂.getLast? := by
  rw [List.getLast?_append]
  cases hl : l₂.getLast? with
  | some x => rfl
  | none =>
    cases l₂ with
    | nil => exact absurd rfl h
    | cons b t =>
      exfalso
      rw [List.getLast?_eq_getLast _ (by simp)] at hl
      cases hl

theorem head?_mem {α} {l : List α} {a : α} (h : l.head? = some a) : a ∈ l := by
  cases l with
  | nil => cases h
  | cons b t =>
    have : b = a := by simpa using h
    exact this ▸ List.mem_cons_self _ _

theorem head?_append_left {α} {l₁ : List α} (l₂ : List α) {a : α}
    (h : l₁.head? = some a) : (l₁ ++ l₂).head? = some a := by
  cases l₁ with
  | nil => cases h
  | cons b t => simpa using h

theorem getLast?_mem' {α} {l : List α} {a : α} (h : l.getLast? = some a) : a ∈ l := by
  have h2 : l.reverse.head? = some a := by rw [List.head?_reverse]; exact h
  exact List.mem_reverse.1 (head?_mem h2)

theorem joinHyphen_good : ∀ runs : List (List Char),
    (∀ r ∈ runs, r ≠ [] ∧ ∀ c ∈ r, isSlugChar c = true) →
    (∀ c ∈ (joinHyphen (runs.map String.mk)).data, slugOrHyphen c = true)
    ∧ noDD (joinHyphen (runs.map String.mk)).data = true
    ∧ (joinHyphen (runs.map String.mk)).data.head? ≠ some '-'
    ∧ (joinHyphen (runs.map String.mk)).data.getLast? ≠ some '-'
    ∧ (runs ≠ [] → (joinHyphen (runs.map String.mk)).data ≠ []) := by
  intro runs
  induction runs with
  | nil =>
    intro _
    refine ⟨by simp [joinHyphen], by rfl, by simp [joinHyphen], by simp [joinHyphen],
      fun h => absurd rfl h⟩
  | cons r rs ih =>
    intro h
    have hr := h r (List.mem_cons_self _ _)
    have hrs : ∀ x ∈ rs, x ≠ [] ∧ ∀ c ∈ x, isSlugChar c = true :=
      fun x hx => h x (List.mem_cons_of_mem _ hx)
    have hslug_oh : ∀ c ∈ r, slugOrHyphen c = true := by
      intro c hc
      simp [slugOrHyphen, hr.2 c hc]
    have hr_nodd : noDD r = true :=
      noDD_of_no_hyphen r (fun c hc => isSlugChar_ne_hyphen (hr.2 c hc))
    have hr_last : r.getLast? ≠ some '-' := by
      intro hl
      exact isSlugChar_ne_hyphen (hr.2 '-' (getLast?_mem' hl)) rfl
    have hr_head : r.head? ≠ some '-' := by
      intro hl
      exact isSlugChar_ne_hyphen (hr.2 '-' (head?_mem hl)) rfl
    cases rs with
    | nil =>
      refine ⟨hslug_oh, hr_nodd, hr_head, hr_last, fun _ => hr.1⟩
    | cons r2 rs2 =>
      have ihh := ih hrs
      have hJne : (joinHyphen ((r2 :: rs2).map String.mk)).data ≠ [] :=
        ihh.2.2.2.2 (by simp)
      have hdata : (joinHyphen ((r :: r2 :: rs2).map String.mk)).data
          = (r ++ ['-']) ++ (joinHyphen ((r2 :: rs2).map String.mk)).data := by
        show ((String.mk r ++ "-") ++ joinHyphen ((r2 :: rs2).map String.mk)).data = _
        rw [string_data_append, string_data_append]
      rw [hdata]
      have hall : ∀ c ∈ (r ++ ['-']) ++ (joinHyphen ((r2 :: rs2).map String.mk)).data,
          slugOrHyphen c = true := by
        intro c hc
        rcases List.mem_append.1 hc with hc | hc
        · rcases List.mem_append.1 hc with hc | hc
          · exact hslug_oh c hc
          · simp only [List.mem_singleton] at hc
            subst hc
            decide
        · exact ihh.1 c hc
      refine ⟨hall, ?_, ?_, ?_, fun _ => by simp [hr.1]⟩
      · -- noDD
        have hleft : noDD (r ++ ['-']) = true := by
          refine noDD_append r ['-'] hr_nodd rfl ?_
          intro a ha b hb hab
          rw [hab.1] at ha
          exact hr_last ha
        refine noDD_append _ _ hleft ihh.2.1 ?_
        intro a ha b hb hab
        exact ihh.2.2.1 (by rw [hb, hab.2])
      · -- head
        intro hcc
        cases hre : r with
        | nil => exact hr.1 hre
        | cons c t =>
          rw [hre] at hcc
          simp only [List.cons_append, List.head?_cons, Option.some.injEq] at hcc
          apply hr_head
          rw [hre, hcc]
          rfl
      · -- last
        rw [getLast?_append_right _ hJne]
        exact ihh.2.2.2.1

theorem trim_to_max_good (N : String) (m : Nat)
    (hall : ∀ c ∈ N.data, slugOrHyphen c = true) (hdd : noDD N.data = true) :
    (∀ c ∈ (trim_to_max_chars N m).data, slugOrHyphen c = true)
    ∧ noDD (trim_to_max_chars N m).data = true := by
  have hnos : ∀ c ∈ N.data, isPySpace c = false :=
    fun c hc => slugOrHyphen_not_space (hall c hc)
  rw [trim_to_max_chars, normalizeWs_eq_self hnos]
  split
  · exact ⟨hall, hdd⟩
  · have hsub1 : ∀ c ∈ rdropWhileL isPySpace (N.data.take m), c ∈ N.data := by
      intro c hc
      exact mem_of_take _ _ (mem_of_rdropWhileL hc)
    have hall1 : ∀ c ∈ rdropWhileL isPySpace (N.data.take m), slugOrHyphen c = true :=
      fun c hc => hall c (hsub1 c hc)
    have hdd1 : noDD (rdropWhileL isPySpace (N.data.take m)) = true := by
      rcases rdropWhileL_eq_take isPySpace (N.data.take m) with ⟨k, hk⟩
      rw [hk]
      exact noDD_take _ _ (noDD_take _ _ hdd)
    have hcont : (rdropWhileL isPySpace (N.data.take m)).contains ' ' = false := by
      apply contains_eq_false
      intro x hx hxe
      have hx2 := hall1 x hx
      rw [hxe] at hx2
      simp [slugOrHyphen, isSlugChar] at hx2
    show (∀ c ∈ (pyRstripChars [' ', ',', ';', ':', '-']
        (if (rdropWhileL isPySpace (N.data.take m)).contains ' ' = true
         then ⟨rsplitLastSpaceL (rdropWhileL isPySpace (N.data.take m))⟩
         else ⟨rdropWhileL isPySpace (N.data.take m)⟩)).data, slugOrHyphen c = true)
      ∧ noDD (pyRstripChars [' ', ',', ';', ':', '-']
        (if (rdropWhileL isPySpace (N.data.take m)).contains ' ' = true
         then ⟨rsplitLastSpaceL (rdropWhileL isPySpace (N.data.take m))⟩
         else ⟨rdropWhileL isPySpace (N.data.take m)⟩)).data = true
    rw [hcont]
    simp only [Bool.false_eq_true, if_false]
    constructor
    · intro c hc
      exact hall1 c (mem_of_rdropWhileL hc)
    · rcases rdropWhileL_eq_take ([' ', ',', ';', ':', '-'].contains)
        (rdropWhileL isPySpace (N.data.take m)) with ⟨k, hk⟩
      show noDD (rdropWhileL _ _) = true
      rw [hk]
      exact noDD_take _ _ hdd1

theorem pyStripChars_hyphen_kebab (T : String)
    (hall : ∀ c ∈ T.data, slugOrHyphen c = true) (hdd : noDD T.data = true) :
    (pyStripChars ['-'] T ≠ "" → isKebab (pyStripChars ['-'] T) = true)
    ∧ ∀ c ∈ (pyStripChars ['-'] T).data, slugOrHyphen c = true := by
  have hsubD : ∀ c ∈ T.data.dropWhile (['-'].contains), c ∈ T.data :=
    fun c hc => mem_of_dropWhile hc
  have hallF : ∀ c ∈ (pyStripChars ['-'] T).data, slugOrHyphen c = true := by
    intro c hc
    exact hall c (hsubD c (mem_of_rdropWhileL hc))
  refine ⟨?_, hallF⟩
  intro hne
  have hneL : (pyStripChars ['-'] T).data ≠ [] := by
    intro hl
    exact hne (by rw [String.ext_iff]; simpa using hl)
  rw [isKebab]
  apply kebabAux_of_good
  · exact hallF
  · rcases dropWhile_eq_drop (['-'].contains) T.data with ⟨n, hn⟩
    rcases rdropWhileL_eq_take (['-'].contains) (T.data.dropWhile (['-'].contains)) with ⟨k, hk⟩
    show noDD (rdropWhileL _ _) = true
    rw [hk]
    apply noDD_take
    rw [hn]
    exact noDD_drop _ _ hdd
  · intro hl
    have h2 := @rdropWhileL_getLast_not (['-'].contains)
      (T.data.dropWhile (['-'].contains)) _ hl
    simp at h2
  · intro _
    refine ⟨hneL, ?_⟩
    intro hh
    rcases rdropWhileL_eq_take (['-'].contains) (T.data.dropWhile (['-'].contains)) with ⟨k, hk⟩
    rw [show (pyStripChars ['-'] T).data
        = rdropWhileL (['-'].contains) (T.data.dropWhile (['-'].contains)) from rfl, hk] at hh
    have h3 := head?_dropWhile_not (head?_take hh)
    simp at h3

theorem trim_slug_spec (s : String) (m : Nat) :
    trim_slug s m ≠ "" ∧ isKebab (trim_slug s m) = true
    ∧ pyStrip (trim_slug s m) = trim_slug s m := by
  have hruns := alnumRunsAux_runs (pyLower (normalizeWs s)).data [] (by simp)
  have hgood := joinHyphen_good _ hruns
  have hall : ∀ c ∈ (joinHyphen (alnumRuns (pyLower (normalizeWs s)))).data,
      slugOrHyphen c = true := hgood.1
  have hdd : noDD (joinHyphen (alnumRuns (pyLower (normalizeWs s)))).data = true := hgood.2.1
  have htm := trim_to_max_good _ m hall hdd
  have hfin := pyStripChars_hyphen_kebab _ htm.1 htm.2
  rw [trim_slug]
  split
  · next hne =>
    refine ⟨hne, hfin.1 hne, ?_⟩
    have hns : ∀ c ∈ (pyStripChars ['-']
        (trim_to_max_chars (joinHyphen (alnumRuns (pyLower (normalizeWs s)))) m)).data,
        isPySpace c = false :=
      fun c hc => slugOrHyphen_not_space (hfin.2 c hc)
    show (⟨pyStripL _⟩ : String) = _
    rw [pyStripL_eq_self_of_all hns]
  · exact ⟨by decide, by decide, by decide⟩

theorem slugErrs_trim (x : String) : slugErrs (pyStrip (trim_slug x 120)) = [] := by
  have hs := trim_slug_spec x 120
  rw [hs.2.2, slugErrs, if_neg]
  simp [hs.2.1]

theorem finishSlug_eq_trim (p : Payload) (fk : String) :
    ∃ x, finishSlug p fk = trim_slug x 120 := by
  rw [finishSlug]
  split
  · exact ⟨_, rfl⟩
  · exact ⟨_, rfl⟩

/-- Claim C10: for every Publish draft, `normalize_seo_fields` leaves a
non-empty kebab-case slug, sets `seo_slug_hint` to exactly that slug, and the
kebab-case slug validation rule can produce no violation on the normalized
draft. -/
theorem normalized_slug_always_kebab (fuel : Nat) (p q : Payload)
    (hpub : p.status = "publish") (h : normalize_seo_fields fuel p = some q) :
    q.slug ≠ "" ∧ isKebab q.slug = true
    ∧ (∃ sb, q.seo = some sb ∧ sb.seo_slug_hint = q.slug)
    ∧ slugErrs (pyStrip q.slug) = [] := by
  rw [normalize_seo_fields, if_neg (by rw [hpub]; simp)] at h
  have main : ∀ fk mt md : String,
      (finishSeo p fk mt md).slug ≠ "" ∧ isKebab (finishSeo p fk mt md).slug = true
      ∧ (∃ sb, (finishSeo p fk mt md).seo = some sb
          ∧ sb.seo_slug_hint = (finishSeo p fk mt md).slug)
      ∧ slugErrs (pyStrip (finishSeo p fk mt md).slug) = [] := by
    intro fk mt md
    obtain ⟨x, hx⟩ := finishSlug_eq_trim p fk
    have hslug : (finishSeo p fk mt md).slug = trim_slug x 120 := hx
    rw [hslug]
    refine ⟨(trim_slug_spec x 120).1, (trim_slug_spec x 120).2.1, ⟨_, rfl, ?_⟩,
      slugErrs_trim x⟩
    show finishSlug p fk = trim_slug x 120
    exact hx
  cases e1 : expand_to_min_chars fuel (seoMetaTitle1 p (seoFocusKeyphrase p)) 45 65
      (normalizeWs p.title) with
  | none => rw [e1] at h; exact absurd h (by simp)
  | some mt =>
    rw [e1] at h
    cases e2 : expand_to_min_chars fuel (seoMetaDescription1 p (seoFocusKeyphrase p)) 130 170
        (if normalizeWs p.excerpt = "" then normalizeWs p.title else normalizeWs p.excerpt) with
    | none => rw [e2] at h; exact absurd h (by simp)
    | some md =>
      rw [e2] at h
      replace h := Option.some.inj h
      subst h
      exact main (seoFocusKeyphrase p) mt md

/-- A concrete Publish draft exercising `normalize_seo_fields` end to end. -/
def c10p : Payload where
  status := "publish"
  reason := ""
  title := "Ram Bahadur Thapa Nepal Election Profile"
  slug := "ram-bahadur-thapa"
  excerpt := "Profile of Ram Bahadur Thapa for the 2026 Nepal election."
  content_html := ""
  topic_keywords := none
  candidate_profile := some emptyProfile
  seo := none
  key_facts := none
  sources := some []

/-- The output of `normalize_seo_fields` on `c10p` with fuel 10. -/
def c10q : Payload :=
  { c10p with
    slug := "ram-bahadur-thapa-nepal-ram-bahadur-thapa",
    seo := some
      { focus_keyphrase := "ram bahadur thapa nepal",
        meta_title := "Ram Bahadur Thapa Nepal Election Profile Stay",
        meta_description := "ram bahadur thapa nepal: Profile of Ram Bahadur Thapa for the 2026 Nepal election. Stay updated with key risks, practical defenses",
        seo_slug_hint := "ram-bahadur-thapa-nepal-ram-bahadur-thapa" } }

set_option maxRecDepth 40000 in
/-- Claim C10, witness for `normalized_slug_always_kebab` at the concrete
draft `c10p`. -/
theorem normalized_slug_always_kebab_witness :
    c10q.slug ≠ "" ∧ isKebab c10q.slug = true
    ∧ (∃ sb, c10q.seo = some sb ∧ sb.seo_slug_hint = c10q.slug)
    ∧ slugErrs (pyStrip c10q.slug) = [] :=
  normalized_slug_always_kebab 10 c10p c10q rfl (by decide)

/-- A Publish draft whose meta title overshoots 65 characters: trimming at a
word boundary cuts it below 45, so a second normalization pass expands it
again. -/
def c9payload : Payload where
  status := "publish"
  reason := ""
  title := "Some Candidate Profile Title Here"
  slug := "abcdefgh-something"
  excerpt := ""
  topic_keywords := none
  content_html := ""
  sources := none
  candidate_profile := none
  seo := some
    { focus_keyphrase := "abcdefgh"
      meta_title := "abcdefgh " ++ String.mk (List.replicate 60 'x')
      meta_description := "abcdefgh " ++ String.mk (List.replicate 130 'y')
      seo_slug_hint := "" }
  key_facts := none

set_option maxRecDepth 40000 in
/-- Claim C9, counterexample: `normalize_seo_fields` is not idempotent —
re-applying it to its output of `c9payload` changes the meta title again. -/
theorem normalize_seo_not_idempotent_cex :
    Option.bind (normalize_seo_fields 10 c9payload) (normalize_seo_fields 10)
      ≠ normalize_seo_fields 10 c9payload := by decide

/-- Claim C9: `normalize_seo_fields` is the identity on every Skip draft
(this half of the claim holds; idempotence does not). -/
theorem normalize_seo_skip_identity (fuel : Nat) (p : Payload)
    (h : p.status = "skip") : normalize_seo_fields fuel p = some p := by
  rw [normalize_seo_fields, if_pos (by rw [h]; decide)]

/-- A Skip draft with an empty reason. -/
def c9skip : Payload where
  status := "skip"
  reason := ""
  title := ""
  slug := ""
  excerpt := ""
  topic_keywords := none
  content_html := ""
  sources := none
  candidate_profile := none
  seo := none
  key_facts := none

/-- Claim C9, witness for `normalize_seo_skip_identity` at the concrete Skip
draft `c9skip`. -/
theorem normalize_seo_skip_identity_witness :
    normalize_seo_fields 7 c9skip = some c9skip :=
  normalize_seo_skip_identity 7 c9skip rfl

theorem rdropWhileL_length_le (p : Char → Bool) (cs : List Char) :
    (rdropWhileL p cs).length ≤ cs.length := by
  rw [rdropWhileL]
  obtain ⟨n, hn⟩ := dropWhile_eq_drop p cs.reverse
  rw [hn]
  simp [List.length_drop]

theorem rsplitLastSpaceL_length_le (cs : List Char) :
    (rsplitLastSpaceL cs).length ≤ cs.length := by
  rw [rsplitLastSpaceL]
  split
  next rest h =>
    obtain ⟨n, hn⟩ := dropWhile_eq_drop (fun c => decide (c ≠ ' ')) cs.reverse
    rw [hn] at h
    have h1 : (cs.reverse.drop n).length ≤ cs.reverse.length := by
      rw [List.length_drop]; omega
    rw [h] at h1
    simp at h1 ⊢
    omega
  next => exact Nat.le_refl _

theorem pyRstripChars_length_le (set : List Char) (s : String) :
    (pyRstripChars set s).length ≤ s.length := by
  rw [pyRstripChars]
  show (rdropWhileL _ s.data).length ≤ s.data.length
  exact rdropWhileL_length_le _ _

theorem trim_to_max_chars_length_le (t : String) (m : Nat) :
    (trim_to_max_chars t m).length ≤ m := by
  rw [trim_to_max_chars]
  split
  next h => rw [pyLen_eq] at h; exact h
  next h =>
    apply Nat.le_trans (pyRstripChars_length_le _ _)
    have htake : ((normalizeWs t).data.take m).length ≤ m := by
      rw [List.length_take]; omega
    have hclip : (rdropWhileL isPySpace ((normalizeWs t).data.take m)).length ≤ m :=
      Nat.le_trans (rdropWhileL_length_le _ _) htake
    split
    next hc =>
      show (rsplitLastSpaceL (rdropWhileL isPySpace ((normalizeWs t).data.take m))).length ≤ m
      exact Nat.le_trans (rsplitLastSpaceL_length_le _) hclip
    next hc =>
      show (rdropWhileL isPySpace ((normalizeWs t).data.take m)).length ≤ m
      exact hclip

/-- Claim C2, counterexample: with `min = 5 ≤ max = 10`, the word-boundary
trim cuts the result to length 3, below the minimum. -/
theorem expand_below_min_cex :
    expand_to_min_chars 0 "abc defghijklmnop" 5 10 "" = some "abc"
    ∧ ¬(5 ≤ ("abc" : String).length) := by decide

/-- Claim C2 (amended): the upper bound holds — every result of
`expand_to_min_chars` has length at most `max_chars` — but the lower bound
does not. -/
theorem expand_to_min_le_max (fuel : Nat) (text : String) (mn mx : Nat)
    (fallback s : String) (h : expand_to_min_chars fuel text mn mx fallback = some s) :
    s.length ≤ mx := by
  rw [expand_to_min_chars] at h
  split at h
  next =>
    have := Option.some.inj h
    rw [← this]
    exact trim_to_max_chars_length_le _ _
  next =>
    dsimp only at h
    split at h
    next t ht =>
      have := Option.some.inj h
      rw [← this]
      exact trim_to_max_chars_length_le _ _
    next => exact absurd h (by simp)

/-- Claim C2, witness for `expand_to_min_le_max` at a concrete call. -/
theorem expand_to_min_le_max_witness : ("hello" : String).length ≤ 5 :=
  expand_to_min_le_max 0 "hello world" 0 5 "" "hello" (by decide)

theorem expandLoop_stuck : ∀ fuel : Nat, expandLoop fuel "" 1 = none := by
  intro fuel
  induction fuel with
  | zero => decide
  | succ n ih =>
    rw [expandLoop]
    rw [if_pos (by decide)]
    have hstep : pyStrip ("" ++ pyTake padPhrase (1 - pyLen "")) = "" := by decide
    rw [hstep]
    exact ih

/-- Claim C3, the failing input: empty text, empty fallback, `min = max = 1`.
The padding loop appends the slice `" "` of the filler phrase and then strips
it away again, so the length never grows and the `while` loop of
`expand_to_min_chars` (lines 325-328) never exits: for every fuel bound the
embedded loop is still running.  The Python function is therefore not total,
contradicting both this claim and the `[min, max]` postcondition's totality
reading. -/
theorem expand_to_min_nonterminating :
    ∀ fuel : Nat, expand_to_min_chars fuel "" 1 1 "" = none := by
  intro fuel
  rw [expand_to_min_chars]
  rw [if_neg (by decide)]
  dsimp only
  rw [if_neg (by decide)]
  rw [show normalizeWs "" = "" from by decide]
  rw [expandLoop_stuck fuel]

/-- A Skip draft with an empty reason, for the main validator. -/
def c5payload : Payload where
  status := "skip"
  reason := " "
  title := ""
  slug := ""
  excerpt := ""
  topic_keywords := none
  content_html := ""
  sources := none
  candidate_profile := none
  seo := none
  key_facts := none

/-- A skip payload with an empty reason, for the gemini validator. -/
def c5g : Gemini.GPayload where
  status := "skip"
  reason := ""
  candidate_name := ""
  sources := []

/-- Claim C5: for every corpus and thresholds, a skip draft with an empty
(whitespace-only) reason yields exactly one violation, and a skip draft
short-circuits both validators — no downstream rule contributes — in
cybersecurity_autopost.py and gemini_autopost.py alike. -/
theorem skip_draft_single_violation (p : Payload) (ts cs : List String) (ms : Nat) (mc : Int)
    (hskip : p.status = "skip") (hreason : pyStrip p.reason = "") (g : Gemini.GPayload)
    (gcs : List String) (gms : Nat) (hgs : g.status = "skip") (hgr : g.reason = "") :
    validatePayload p ts cs ms mc = ["skip payload must include a reason."]
    ∧ Gemini.validate_payload g gcs gms = ["Skip reason missing"] := by
  constructor
  · rw [validatePayload, if_neg (by rw [hskip]; decide), if_pos hskip, skipErrs,
      if_pos hreason]
  · rw [Gemini.validate_payload, if_pos hgs, if_pos hgr]

/-- Claim C5, witness for `skip_draft_single_violation` at concrete skip
drafts. -/
theorem skip_draft_single_violation_witness :
    validatePayload c5payload [] [] 12 85 = ["skip payload must include a reason."]
    ∧ Gemini.validate_payload c5g [] 8 = ["Skip reason missing"] :=
  skip_draft_single_violation c5payload [] [] 12 85 rfl (by decide) c5g [] 8 rfl rfl

theorem mem_collapseWsL {c : Char} : ∀ cs : List Char, c ∈ collapseWsL cs → c ∈ cs ∨ c = ' '
  | [], h => by simp [collapseWsL] at h
  | [a], h => by
    simp only [collapseWsL, List.mem_singleton] at h
    by_cases hs : isPySpace a = true
    · rw [if_pos hs] at h; exact Or.inr h
    · rw [if_neg hs] at h; exact Or.inl (h ▸ List.mem_singleton_self a)
  | a :: b :: rest, h => by
    rw [collapseWsL] at h
    split at h
    · rcases mem_collapseWsL (b :: rest) h with h1 | h1
      · exact Or.inl (List.mem_cons_of_mem a h1)
      · exact Or.inr h1
    · rcases List.mem_cons.1 h with h1 | h1
      · by_cases hs : isPySpace a = true
        · rw [if_pos hs] at h1; exact Or.inr h1
        · rw [if_neg hs] at h1; exact Or.inl (h1 ▸ List.mem_cons_self a _)
      · rcases mem_collapseWsL (b :: rest) h1 with h2 | h2
        · exact Or.inl (List.mem_cons_of_mem a h2)
        · exact Or.inr h2

theorem mem_normalizeWs {c : Char} {s : String} (h : c ∈ (normalizeWs s).data) :
    c ∈ s.data ∨ c = ' ' :=
  mem_collapseWsL s.data (mem_of_dropWhile (mem_of_rdropWhileL h))

theorem alnumRunsAux_nil : ∀ cs : List Char, (∀ c ∈ cs, isSlugChar c = false) →
    alnumRunsAux [] cs = []
  | [], _ => by rw [alnumRunsAux]; rfl
  | c :: rest, h => by
    rw [alnumRunsAux]
    rw [if_neg (by rw [h c (List.mem_cons_self c rest)]; exact Bool.false_ne_true)]
    rw [if_pos rfl]
    exact alnumRunsAux_nil rest (fun x hx => h x (List.mem_cons_of_mem c hx))

/-- Claim C6, counterexample: gemini_autopost.py's `trim_slug` has no default
and returns the empty string on input with no alphanumeric characters. -/
theorem gemini_trim_slug_empty_cex : Gemini.trim_slug "!!!" = "" := by decide

/-- Claim C6 (amended): cybersecurity_autopost.py's `trim_slug` never returns
an empty string and falls back to the fixed default when the input has no
alphanumeric characters; gemini_autopost.py's `trim_slug` does neither. -/
theorem trim_slug_nonempty_default (s : String) (m : Nat)
    (h : ∀ c ∈ s.data, isSlugChar c.toLower = false) :
    (∀ t : String, ∀ k : Nat, trim_slug t k ≠ "")
    ∧ trim_slug s m = "nepal-election-candidate-profile" := by
  refine ⟨fun t k => (trim_slug_spec t k).1, ?_⟩
  have hruns : alnumRuns (pyLower (normalizeWs s)) = [] := by
    rw [alnumRuns, alnumRunsL, alnumRunsAux_nil]
    · rfl
    · intro c hc
      rw [pyLower] at hc
      simp only [List.mem_map] at hc
      obtain ⟨a, ha, rfl⟩ := hc
      rcases mem_normalizeWs ha with h1 | h1
      · exact h a h1
      · rw [h1]; decide
  have h0 : trim_to_max_chars "" m = "" := by
    rw [trim_to_max_chars]
    rw [show pyLen (normalizeWs "") = 0 from by decide]
    rw [if_pos (Nat.zero_le m)]
    decide
  rw [trim_slug, hruns]
  rw [show joinHyphen [] = "" from rfl]
  rw [h0]
  rw [show pyStripChars [Char.ofNat 45] "" = "" from by decide]
  rw [if_neg (by simp)]

/-- Claim C6, witness for `trim_slug_nonempty_default` at a concrete
alphanumeric-free input. -/
theorem trim_slug_nonempty_default_witness :
    (∀ t : String, ∀ k : Nat, trim_slug t k ≠ "")
    ∧ trim_slug "???" 120 = "nepal-election-candidate-profile" :=
  trim_slug_nonempty_default "???" 120 (by decide)

/-- Claim C7: `run_gemini` retries only on a rate-limit signal, waiting
`base_wait * attempt_number` before the next attempt, up to 3 attempts: two
rate limits then a success complete normally with waits `[30, 60]`; any
non-rate-limit failure propagates immediately with only the waits already
recorded; three rate limits exhaust the budget after waits `[30, 60]`. -/
theorem gemini_retry_policy (o : Nat → Gemini.GenOutcome) :
    (o 0 = Gemini.GenOutcome.rateLimit → o 1 = Gemini.GenOutcome.rateLimit →
      o 2 = Gemini.GenOutcome.success →
      Gemini.run_gemini o = (Gemini.GenResult.ok, [30, 60]))
    ∧ (∀ i, i < 3 → o i = Gemini.GenOutcome.otherError →
        (∀ j, j < i → o j = Gemini.GenOutcome.rateLimit) →
        Gemini.run_gemini o
          = (Gemini.GenResult.fatalOther,
             (List.range i).map (fun j => Gemini.base_wait * (j + 1))))
    ∧ ((∀ j, j < 3 → o j = Gemini.GenOutcome.rateLimit) →
        Gemini.run_gemini o = (Gemini.GenResult.fatalRateLimit, [30, 60])) := by
  refine ⟨?_, ?_, ?_⟩
  · intro h0 h1 h2
    simp [Gemini.run_gemini, Gemini.geminiGo, Gemini.max_retries, Gemini.base_wait,
      h0, h1, h2]
  · intro i hi ho hprior
    interval_cases i
    · simp [Gemini.run_gemini, Gemini.geminiGo, Gemini.max_retries, Gemini.base_wait, ho]
    · simp [Gemini.run_gemini, Gemini.geminiGo, Gemini.max_retries, Gemini.base_wait,
        ho, hprior 0 (by decide)]
      decide
    · simp [Gemini.run_gemini, Gemini.geminiGo, Gemini.max_retries, Gemini.base_wait,
        ho, hprior 0 (by decide), hprior 1 (by decide)]
      decide
  · intro hall
    simp [Gemini.run_gemini, Gemini.geminiGo, Gemini.max_retries, Gemini.base_wait,
      hall 0 (by decide), hall 1 (by decide), hall 2 (by decide)]

/-- An outcome sequence that rate-limits twice and then succeeds. -/
def c7outcomes : Nat → Gemini.GenOutcome :=
  fun n => if n < 2 then Gemini.GenOutcome.rateLimit else Gemini.GenOutcome.success

/-- Claim C7, witness for `gemini_retry_policy` at the two-rate-limits-then-
success outcome sequence. -/
theorem gemini_retry_policy_witness :
    Gemini.run_gemini c7outcomes = (Gemini.GenResult.ok, [30, 60]) :=
  (gemini_retry_policy c7outcomes).1 rfl rfl rfl

/-- Claim C8: with a lock marker present, an age at or below the staleness
threshold makes the run exit cleanly (code 0, no corpus read, marker left in
place, no create attempted), while an age strictly over the threshold deletes
the marker and performs the exclusive create exactly once. -/
theorem lock_contention_behavior (now stale mtime : Int) (rest : List RunEvent × Int) :
    (now - mtime ≤ stale * 60 →
      acquire_lock now stale (some mtime)
        = { acquired := false, lockAfter := some mtime, createAttempts := 0,
            deletedStale := false }
      ∧ mainRun now stale (some mtime) rest
        = { exitCode := 0, events := [], lockAfter := some mtime })
    ∧ (stale * 60 < now - mtime →
      acquire_lock now stale (some mtime)
        = { acquired := true, lockAfter := some now, createAttempts := 1,
            deletedStale := true }) := by
  constructor
  · intro h
    have ha : acquire_lock now stale (some mtime)
        = { acquired := false, lockAfter := some mtime, createAttempts := 0,
            deletedStale := false } := by
      rw [acquire_lock]
      exact if_neg (not_lt.mpr h)
    refine ⟨ha, ?_⟩
    rw [mainRun, ha]
    rfl
  · intro h
    rw [acquire_lock]
    exact if_pos h

/-- Claim C8, witness for `lock_contention_behavior` at a concrete fresh
marker (age 50 seconds, threshold 2 minutes). -/
theorem lock_contention_behavior_witness :
    acquire_lock 100 2 (some 50)
      = { acquired := false, lockAfter := some 50, createAttempts := 0,
          deletedStale := false }
    ∧ mainRun 100 2 (some 50) ([], 0)
      = { exitCode := 0, events := [], lockAfter := some 50 } :=
  (lock_contention_behavior 100 2 50 ([], 0)).1 (by decide)
